import Mathlib

/-!
# SpatialVCS — verification of the Spatial Object Fusion & Tracking Engine

Shallow embedding of the core of `src/main.py` and
`src/services/spatial_memory.py`.  Python floats are idealised as exact
rationals (`ℚ`) except where the source takes square roots, where the real
numbers are used.  External collaborators (the YOLO detector, the Gemini
describer, the sentence-transformer encoder together with FAISS
`normalize_L2`) are modelled as explicit function parameters; the code under
`src/` is translated line by line around them.
-/

namespace SpatialVCS

/-! ## Python numeric primitives -/

/-- Python `int(q)`: truncation toward zero. -/
def pyTrunc (q : ℚ) : ℤ := if 0 ≤ q then ⌊q⌋ else ⌈q⌉

/-- Python `round(q)`: round to the nearest integer, ties to even. -/
def pyRoundInt (q : ℚ) : ℤ :=
  let f := ⌊q⌋
  let r := q - (f : ℚ)
  if r < 1/2 then f
  else if 1/2 < r then f + 1
  else if f % 2 = 0 then f else f + 1

/-- Little-endian base-10 digits, fuel-driven so that it is structural
recursion (kernel-reducible); `fuel ≥ n` suffices. -/
def digitsRevAux : ℕ → ℕ → List ℕ
  | 0, _ => []
  | fuel + 1, n => if n = 0 then [] else n % 10 :: digitsRevAux fuel (n / 10)

/-- Little-endian base-10 digits of `n`. -/
def digitsRev (n : ℕ) : List ℕ := digitsRevAux n n

/-- The character for one decimal digit. -/
def digitChar (d : ℕ) : Char := Char.ofNat (48 + d)

/-- Python `str` of a natural number (decimal). -/
def natRepr (n : ℕ) : String :=
  if n = 0 then "0" else String.mk ((digitsRev n).reverse.map digitChar)

/-- Python `str` of an integer (decimal, with a leading minus sign). -/
def intRepr (i : ℤ) : String :=
  if i < 0 then "-" ++ natRepr i.natAbs else natRepr i.natAbs

/-! ## Configuration parsing (src/main.py lines 50-63)

`_int_env` reads an environment variable.  `raw = none` models an unset
variable, `raw = some none` a set but unparsable one (the `ValueError`
branch), and `raw = some (some v)` a parsed integer `v`. -/

def _int_env (raw : Option (Option ℤ)) (default : ℤ) (minimum : ℤ) : ℤ :=
  match raw with
  | none => default
  | some none => default
  | some (some v) => max minimum v

/-! ## Data model -/

structure Pos3 where
  x : ℚ
  y : ℚ
  z : ℚ
deriving DecidableEq, Inhabited

/-- A raw detection as produced by the external detector and (possibly)
enriched in place by the Gemini description step.  `position3d` models the
`position_3d` dict through its defaulted reads (`.get(k, 0.0)`);
`geminiName = none` models an absent `gemini_name` key. -/
structure Det where
  label : String
  trackId : ℤ
  confidence : ℚ
  bbox : List ℚ
  position3d : Pos3
  framePath : String
  geminiName : Option String
  geminiDetails : Option String
deriving DecidableEq

/-! ## Identity Resolver (src/main.py lines 83-97) -/

/-- `_object_key_from_detection`: tracked objects key on label and tracker
id; untracked ones bucket the bounding-box centre into a pixel grid of size
`bucketPx` (`FALLBACK_KEY_BUCKET_PX`) and the z coordinate into 0.5-unit
buckets.  Python `//` on ints is floor division (`Int.fdiv`). -/
def _object_key_from_detection (bucketPx : ℤ) (det : Det) : String :=
  let tid := det.trackId
  let label := det.label
  if tid > -1 then
    label ++ "_" ++ intRepr tid
  else
    let cx : ℤ := if det.bbox.length = 4 then
        pyTrunc ((det.bbox.getD 0 0 + det.bbox.getD 2 0) / 2) else 0
    let cy : ℤ := if det.bbox.length = 4 then
        pyTrunc ((det.bbox.getD 1 0 + det.bbox.getD 3 0) / 2) else 0
    let cellX := Int.fdiv cx bucketPx
    let cellY := Int.fdiv cy bucketPx
    let zBucket := pyRoundInt (det.position3d.z * 2)
    label ++ "_cell_" ++ intRepr cellX ++ "_" ++ intRepr cellY ++ "_" ++ intRepr zBucket

/-- The x grid cell of an untracked detection (the `cell_x` local). -/
def fallbackCellX (bucketPx : ℤ) (det : Det) : ℤ :=
  Int.fdiv (if det.bbox.length = 4 then
      pyTrunc ((det.bbox.getD 0 0 + det.bbox.getD 2 0) / 2) else 0) bucketPx

/-- The y grid cell of an untracked detection (the `cell_y` local). -/
def fallbackCellY (bucketPx : ℤ) (det : Det) : ℤ :=
  Int.fdiv (if det.bbox.length = 4 then
      pyTrunc ((det.bbox.getD 1 0 + det.bbox.getD 3 0) / 2) else 0) bucketPx

/-- The z bucket of a detection (the `z_bucket` local, `round(z * 2.0)`). -/
def fallbackZBucket (det : Det) : ℤ := pyRoundInt (det.position3d.z * 2)

/-! ## Sampling Policy (src/main.py lines 279-295) -/

/-- `should_run_yolo = (frame_count % YOLO_FRAME_STRIDE == 1)`. -/
def shouldRunYolo (frameCount stride : ℕ) : Bool := frameCount % stride == 1

/-- `run_gemini = gemini and (frame_count % GEMINI_FRAME_STRIDE == 1)`. -/
def runGemini (geminiAvailable : Bool) (frameCount stride : ℕ) : Bool :=
  geminiAvailable && (frameCount % stride == 1)

/-- The detection stage of one frame (src/main.py lines 279-291).  The
external `process_frame` is a parameter: `detectOutcome` is its result with
detection enabled, `storeOutcome` the frame path it returns when called with
`run_detection=False`.  On skipped frames no detections are emitted but the
stored frame path is still recorded. -/
def detectionStage (detectOutcome : List Det × String) (storeOutcome : String)
    (frameCount stride : ℕ) : List Det × String :=
  if shouldRunYolo frameCount stride then detectOutcome else ([], storeOutcome)

/-! ## Association lists (Python dicts with string keys, insertion-ordered) -/

def alookup {β : Type} : List (String × β) → String → Option β
  | [], _ => none
  | (k0, v) :: rest, k => if k0 = k then some v else alookup rest k

/-- Python dict assignment `m[k] = v`: replace in place, else append. -/
def upsert {β : Type} : List (String × β) → String → β → List (String × β)
  | [], k, v => [(k, v)]
  | (k0, v0) :: rest, k, v =>
    if k0 = k then (k, v) :: rest else (k0, v0) :: upsert rest k v

/-- Python `m.pop(k, None)`: drop the entry with key `k`. -/
def aerase {β : Type} : List (String × β) → String → List (String × β)
  | [], _ => []
  | (k0, v0) :: rest, k => if k0 = k then rest else (k0, v0) :: aerase rest k

/-! ## Label Fusion Cache (src/main.py lines 364-414) -/

structure CachedLabel where
  name : String
  details : String
  updatedAt : ℚ
deriving DecidableEq

abbrev LabelCache := List (String × CachedLabel)

/-- Python truthiness of an optional string: present and nonempty. -/
def truthyOpt (s : Option String) : Bool :=
  match s with
  | none => false
  | some str => str ≠ ""

/-- The per-detection slice of the broadcast-assembly loop (src/main.py
lines 368-412): a detection carrying a fresh Gemini name overwrites its
cache entry; then the display label is the cached name when the entry is
within `ttl` of the frame timestamp, else the detection's own Gemini name
(falling back to the raw detector label) with a lazy eviction of the
expired entry.  Returns (display label, display details, updated cache). -/
def fuseDetectionLabel (bucketPx : ℤ) (ttl : ℚ) (cache : LabelCache) (d : Det)
    (timestamp : ℚ) : String × String × LabelCache :=
  let label := d.label
  let objKey := _object_key_from_detection bucketPx d
  let cache1 := if truthyOpt d.geminiName then
      upsert cache objKey ⟨d.geminiName.getD label, d.geminiDetails.getD "", timestamp⟩
    else cache
  match alookup cache1 objKey with
  | some cached =>
    if timestamp - cached.updatedAt ≤ ttl then
      (cached.name, cached.details, cache1)
    else
      (d.geminiName.getD label, d.geminiDetails.getD "", aerase cache1 objKey)
  | none => (d.geminiName.getD label, d.geminiDetails.getD "", cache1)

/-! ## Pose Transform (src/main.py lines 100-149) -/

/-- `math.radians`. -/
noncomputable def radiansOf (deg : ℝ) : ℝ := deg * Real.pi / 180

/-- The `rz` elemental rotation (already in radians). -/
noncomputable def rotZ (a : ℝ) : Matrix (Fin 3) (Fin 3) ℝ :=
  !![Real.cos a, -Real.sin a, 0; Real.sin a, Real.cos a, 0; 0, 0, 1]

/-- The `rx` elemental rotation (already in radians). -/
noncomputable def rotX (b : ℝ) : Matrix (Fin 3) (Fin 3) ℝ :=
  !![1, 0, 0; 0, Real.cos b, -Real.sin b; 0, Real.sin b, Real.cos b]

/-- The `ry` elemental rotation (already in radians). -/
noncomputable def rotY (g : ℝ) : Matrix (Fin 3) (Fin 3) ℝ :=
  !![Real.cos g, 0, Real.sin g; 0, 1, 0; -Real.sin g, 0, Real.cos g]

/-- `_rotation_matrix_from_orientation`: degrees to radians, then
`matmul(matmul(rz, rx), ry)`. -/
noncomputable def _rotation_matrix_from_orientation (alpha beta gamma : ℝ) :
    Matrix (Fin 3) (Fin 3) ℝ :=
  rotZ (radiansOf alpha) * rotX (radiansOf beta) * rotY (radiansOf gamma)

/-- `_pose_matrix_str_from_orientation` up to (unmodelled) float-to-string
formatting: the 16 pose values, row-major, with zero translation and bottom
row 0,0,0,1. -/
noncomputable def _pose_matrix_from_orientation (alpha beta gamma : ℝ) : List ℝ :=
  let rot := _rotation_matrix_from_orientation alpha beta gamma
  [rot 0 0, rot 0 1, rot 0 2, 0,
   rot 1 0, rot 1 1, rot 1 2, 0,
   rot 2 0, rot 2 1, rot 2 2, 0,
   0, 0, 0, 1]

/-! ## Scan State Store (src/main.py lines 66-80, 152-162) -/

/-- One entry of a scan's detection history (src/main.py lines 152-162).
The raw detection dicts carry no `yolo_label` key, so `_record_detections`
stores the plain label there. -/
structure DetRec where
  label : String
  yoloLabel : String
  geminiName : String
  confidence : ℚ
  position3d : Pos3
  timestamp : ℚ
  framePath : String
deriving DecidableEq

/-- One semantic observation appended to `scan_record["objects"]`. -/
structure SemObs where
  name : String
  position : Pos3
  details : String
  timestamp : ℚ
  framePath : String
deriving DecidableEq

structure ScanRec where
  scanId : String
  status : String
  source : Option String
  frames : ℕ
  objectCount : ℕ
  objects : List SemObs
  detections : List DetRec
  geminiLabelCache : LabelCache
  lastFramePath : Option String
  updatedAt : Option ℚ
deriving DecidableEq

/-- `_ensure_scan`: lazy idempotent creation of a scan record. -/
def _ensure_scan (scans : List (String × ScanRec)) (scanId : String)
    (source : Option String) : List (String × ScanRec) × ScanRec :=
  match alookup scans scanId with
  | some r => (scans, r)
  | none =>
    let r : ScanRec := ⟨scanId, "scanning", source, 0, 0, [], [], [], none, none⟩
    (upsert scans scanId r, r)

/-- The history entry recorded for one detection (lines 153-162). -/
def detRecOf (timestamp : ℚ) (det : Det) : DetRec :=
  ⟨det.label, det.label, det.geminiName.getD "", det.confidence, det.position3d,
    timestamp, det.framePath⟩

/-- `_record_detections`: append one history entry per detection. -/
def _record_detections (scanRecord : ScanRec) (detections : List Det)
    (timestamp : ℚ) : ScanRec :=
  { scanRecord with
    detections := scanRecord.detections ++ detections.map (detRecOf timestamp) }

/-! ## Gemini description stage (src/main.py lines 294-322) -/

structure GObj where
  name : String
  position : Pos3
  details : String
  bbox : List ℚ
  trackId : ℤ
  yoloLabel : String
  confidence : ℚ
deriving DecidableEq

/-- The Gemini per-object description step.  `crops` holds `true` per
detection when `crop_detections` produced a crop (`c is not None`);
`describeOutcome = none` models an exception escaping the `try` block (the
description call throwing): it is caught and no Gemini objects are
produced.  On success `describeOutcome = some desc` gives the external
describer's resolved `(name, details)` per detection (`desc.get("name",
det["label"])` already applied). -/
def geminiDescribeStage (geminiAvailable : Bool) (frameCount strideGemini maxCrops : ℕ)
    (detections : List Det) (crops : List Bool)
    (describeOutcome : Option (Det → String × String)) : List GObj :=
  if runGemini geminiAvailable frameCount strideGemini && !detections.isEmpty then
    match describeOutcome with
    | none => []
    | some desc =>
      (((crops.zip detections).filterMap (fun cd =>
          if cd.1 then some cd.2 else none)).take maxCrops).map (fun det =>
        ⟨(desc det).1, det.position3d, (desc det).2, det.bbox, det.trackId,
          det.label, det.confidence⟩)
  else []

/-! ## Semantic Memory Index (src/services/spatial_memory.py) -/

abbrev Vec := List ℚ

/-- Inner product of two stored vectors. -/
def innerProd (v w : Vec) : ℚ := (List.zipWith (· * ·) v w).sum

/-- Metadata stored alongside each vector (the websocket path dict of
src/main.py lines 337-347, with `"text"` merged in by `add_observation`). -/
structure MemMeta where
  text : String
  scanId : String
  framePath : String
  timestamp : ℚ
  bbox : List ℚ
  trackId : ℤ
  yoloLabel : String
  confidence : ℚ
  position3d : Pos3
  source : String
deriving DecidableEq, Inhabited

structure SpatialMemory where
  metadata : List MemMeta
  index : Option (List Vec)
  initialized : Bool
deriving DecidableEq

/-- The constructor state (lines 32-36). -/
def SpatialMemory.emptyState : SpatialMemory := ⟨[], none, false⟩

/-- `_ensure_init` (lines 38-55).  `faissAvailable` models `_get_faiss()`
returning a module; `diskIndex` is the persisted index file (`none` when
the file is absent) and `diskMeta` the metadata sidecar file. -/
def SpatialMemory.ensureInit (faissAvailable : Bool) (diskIndex : Option (List Vec))
    (diskMeta : Option (List MemMeta)) (s : SpatialMemory) : SpatialMemory :=
  if s.initialized then s
  else
    let s1 : SpatialMemory := { s with initialized := true }
    if !faissAvailable then s1
    else match diskIndex with
      | some vs =>
        { s1 with
          index := some vs
          metadata := (match diskMeta with | some m => m | none => s1.metadata) }
      | none => { s1 with index := some [] }

/-- `add_observation` (lines 57-69).  `embed` models the external
`encoder.encode` composed with `faiss.normalize_L2`. -/
def SpatialMemory.add_observation (faissAvailable encoderAvailable : Bool)
    (embed : String → Vec) (diskIndex : Option (List Vec))
    (diskMeta : Option (List MemMeta)) (s : SpatialMemory) (text : String)
    (meta : MemMeta) : SpatialMemory :=
  let s1 := s.ensureInit faissAvailable diskIndex diskMeta
  if !encoderAvailable || !faissAvailable then s1
  else match s1.index with
    | none => s1
    | some vs =>
      { s1 with
        index := some (vs ++ [embed text])
        metadata := s1.metadata ++ [{ meta with text := text }] }

/-- The ranking relation of exact inner-product search: higher score first,
ties broken by lower index. -/
def rankRel (score : ℕ → ℚ) (i j : ℕ) : Prop :=
  score j < score i ∨ (score i = score j ∧ i ≤ j)

instance (score : ℕ → ℚ) : DecidableRel (rankRel score) := fun i j => by
  unfold rankRel; infer_instance

/-- Modelled external: FAISS `IndexFlatIP.search` over stored vectors `vs`
with query `q`, asking for `n` neighbours: the indices of all stored
vectors in descending-score order, truncated to `n` and padded with `-1`
labels when `n` exceeds the vector count. -/
def faissSearchLabels (vs : List Vec) (q : Vec) (n : ℕ) : List ℤ :=
  let ranked := List.insertionSort
    (rankRel (fun i => innerProd q (vs.getD i []))) (List.range vs.length)
  (ranked.take n).map Int.ofNat ++ List.replicate (n - vs.length) (-1)

structure SearchResult where
  score : ℚ
  description : String
  metadata : MemMeta
deriving DecidableEq

/-- The result-collection loop of `search` (lines 86-102): walk the ranked
labels, skip `-1` and out-of-range ones, drop entries failing the scan-id
filter, and stop once `k` results are collected (the length test runs
right after the append).  `n` counts results collected so far. -/
def collectResults (metadata : List MemMeta) (scanFilter : Option String) (k : ℕ)
    (scoreOf : ℤ → ℚ) : List ℤ → ℕ → List SearchResult
  | [], _ => []
  | idx :: rest, n =>
    if idx = -1 ∨ (metadata.length : ℤ) ≤ idx then
      collectResults metadata scanFilter k scoreOf rest n
    else if (match scanFilter with
        | some sid => decide ((metadata.getD idx.toNat default).scanId ≠ sid)
        | none => false) then
      collectResults metadata scanFilter k scoreOf rest n
    else if k ≤ n + 1 then
      [⟨scoreOf idx, (metadata.getD idx.toNat default).text, metadata.getD idx.toNat default⟩]
    else
      ⟨scoreOf idx, (metadata.getD idx.toNat default).text, metadata.getD idx.toNat default⟩ ::
        collectResults metadata scanFilter k scoreOf rest (n + 1)

/-- `search` (lines 71-102).  The over-fetch factor 10 applies only when a
scan filter is set. -/
def SpatialMemory.search (faissAvailable encoderAvailable : Bool)
    (embed : String → Vec) (diskIndex : Option (List Vec))
    (diskMeta : Option (List MemMeta)) (s : SpatialMemory) (query : String)
    (k : ℕ) (scanFilter : Option String) : List SearchResult :=
  let s1 := s.ensureInit faissAvailable diskIndex diskMeta
  if !encoderAvailable || !faissAvailable then []
  else match s1.index with
    | none => []
    | some vs =>
      let qv := embed query
      let searchK := match scanFilter with
        | some _ => k * 10
        | none => k
      let labels := faissSearchLabels vs qv searchK
      collectResults s1.metadata scanFilter k
        (fun idx => innerProd qv (vs.getD idx.toNat [])) labels 0

/-! ## Frame merge, step 5 of the probe loop (src/main.py lines 324-361) -/

/-- The frame path recorded in semantic metadata (line 339): the stored
frame path, else the first detection's, else empty. -/
def effFramePath (framePath : String) (detections : List Det) : String :=
  if framePath ≠ "" then framePath
  else match detections with
    | det :: _ => det.framePath
    | [] => ""

/-- The semantic-index metadata built for one Gemini object (lines
337-348), with the indexed text (line 348) merged in. -/
def obsMetaOf (scanId clientId : String) (detections : List Det) (timestamp : ℚ)
    (framePath : String) (obj : GObj) : MemMeta :=
  ⟨obj.name ++ " " ++ obj.details, scanId, effFramePath framePath detections,
    timestamp, obj.bbox, obj.trackId, obj.yoloLabel, obj.confidence,
    obj.position, clientId⟩

/-- The semantic observation appended to `scan_record["objects"]` for one
Gemini object (lines 353-359). -/
def semObsOf (detections : List Det) (timestamp : ℚ) (framePath : String)
    (obj : GObj) : SemObs :=
  ⟨obj.name, obj.position, obj.details, timestamp, effFramePath framePath detections⟩

/-- One iteration of the per-object loop (lines 336-359): try to add to
the semantic index (`addThrows obj = true` models `add_observation`
raising, caught at line 351, so that entry is skipped), then append the
semantic observation to the scan record unconditionally. -/
def mergeObsStep (scanId clientId : String) (detections : List Det) (timestamp : ℚ)
    (framePath : String) (addThrows : GObj → Bool)
    (acc : ScanRec × List MemMeta) (obj : GObj) : ScanRec × List MemMeta :=
  let mem1 := if addThrows obj then acc.2
    else acc.2 ++ [obsMetaOf scanId clientId detections timestamp framePath obj]
  ({ acc.1 with objects := acc.1.objects ++
      [semObsOf detections timestamp framePath obj] }, mem1)

/-- Lines 325-361 of the probe loop, acting on one scan record and the
semantic index.  The label-cache broadcast step (lines 364-414) is
modelled separately by `fuseDetectionLabel`. -/
def mergeFrame (scanId clientId : String) (r : ScanRec) (memIndex : List MemMeta)
    (detections : List Det) (geminiObjects : List GObj) (timestamp : ℚ)
    (framePath : String) (addThrows : GObj → Bool) : ScanRec × List MemMeta :=
  let r1 : ScanRec := { r with frames := r.frames + 1, updatedAt := some timestamp }
  let r2 : ScanRec :=
    if framePath ≠ "" then { r1 with lastFramePath := some framePath }
    else match detections with
      | det :: _ => { r1 with lastFramePath := some det.framePath }
      | [] => r1
  let r3 := if !detections.isEmpty then _record_detections r2 detections timestamp else r2
  let r4m := geminiObjects.foldl
    (mergeObsStep scanId clientId detections timestamp framePath addThrows) (r3, memIndex)
  ({ r4m.1 with objectCount := r4m.1.objectCount + geminiObjects.length }, r4m.2)

/-! ## Scan Diff Engine (src/main.py lines 165-186, 672-727) -/

section DiffEngine

open Classical

/-- `_euclidean_distance` (both the scipy call and the manual fallback
compute the same Euclidean distance). -/
noncomputable def _euclidean_distance (a b : Pos3) : ℝ :=
  Real.sqrt (((a.x - b.x) ^ 2 + (a.y - b.y) ^ 2 + (a.z - b.z) ^ 2 : ℚ) : ℝ)

/-- The label under which a history entry is diffed (line 179):
`item.get("yolo_label") or item.get("label")` with Python falsy-or. -/
def effLabel (item : DetRec) : String :=
  if item.yoloLabel ≠ "" then item.yoloLabel else item.label

/-- One iteration of the `_latest_position_by_label` loop (lines 178-185):
keep the entry with the strictly greatest timestamp per label (first wins
ties); empty labels are skipped. -/
def latestStep (latest : List (String × DetRec)) (item : DetRec) : List (String × DetRec) :=
  if effLabel item = "" then latest
  else match alookup latest (effLabel item) with
    | none => upsert latest (effLabel item) item
    | some prev =>
      if prev.timestamp < item.timestamp then upsert latest (effLabel item) item else latest

/-- `_latest_position_by_label` (lines 176-186).  The dict is modelled as
an insertion-ordered association list. -/
def _latest_position_by_label (detections : List DetRec) : List (String × DetRec) :=
  detections.foldl latestStep []

/-- Python `sorted` on distinct strings: ascending lexicographic order. -/
def sortStr (l : List String) : List String := List.insertionSort (· ≤ ·) l

/-- Python `round(x)` on a real: nearest integer, ties to even. -/
noncomputable def pyRoundIntR (x : ℝ) : ℤ :=
  let f := ⌊x⌋
  if x - (f : ℝ) < 1/2 then f
  else if (1 : ℝ)/2 < x - (f : ℝ) then f + 1
  else if f % 2 = 0 then f else f + 1

/-- Python `round(x, 4)`. -/
noncomputable def round4 (x : ℝ) : ℝ := (pyRoundIntR (x * 10000) : ℝ) / 10000

inductive EvType where
  | MOVE
  | ADDED
  | REMOVED
deriving DecidableEq

structure DiffEvent where
  etype : EvType
  label : String
  distance : Option ℝ
  fromPos : Option Pos3
  toPos : Option Pos3

/-- The MOVE-loop body of `spatial_diff` (lines 688-699) for one common
label: emit a MOVE event exactly when the Euclidean distance between the
two latest positions strictly exceeds the threshold. -/
noncomputable def moveEventFor (beforeLatest afterLatest : List (String × DetRec))
    (threshold : ℚ) (label : String) : Option DiffEvent :=
  match alookup beforeLatest label, alookup afterLatest label with
  | some oldItem, some newItem =>
    if (threshold : ℝ) < _euclidean_distance newItem.position3d oldItem.position3d then
      some ⟨.MOVE, label,
        some (round4 (_euclidean_distance newItem.position3d oldItem.position3d)),
        some oldItem.position3d, some newItem.position3d⟩
    else none
  | _, _ => none

/-- The ADDED-loop body (lines 701-708). -/
def addedEventFor (afterLatest : List (String × DetRec)) (label : String) : DiffEvent :=
  ⟨.ADDED, label, none, none, (alookup afterLatest label).map (·.position3d)⟩

/-- The REMOVED-loop body (lines 710-717). -/
def removedEventFor (beforeLatest : List (String × DetRec)) (label : String) : DiffEvent :=
  ⟨.REMOVED, label, none, (alookup beforeLatest label).map (·.position3d), none⟩

/-- The event-construction loops of `spatial_diff` (lines 687-717): MOVE
events for common labels beyond the threshold, then ADDED, then REMOVED,
each category in ascending label order. -/
noncomputable def diffEvents (beforeLatest afterLatest : List (String × DetRec))
    (threshold : ℚ) : List DiffEvent :=
  let beforeLabels := beforeLatest.map Prod.fst
  let afterLabels := afterLatest.map Prod.fst
  let commonSorted := sortStr (beforeLabels.filter (fun l => afterLabels.contains l))
  let addedSorted := sortStr (afterLabels.filter (fun l => !beforeLabels.contains l))
  let removedSorted := sortStr (beforeLabels.filter (fun l => !afterLabels.contains l))
  commonSorted.filterMap (moveEventFor beforeLatest afterLatest threshold)
  ++ addedSorted.map (addedEventFor afterLatest)
  ++ removedSorted.map (removedEventFor beforeLatest)

def quoteStr : String := String.singleton (Char.ofNat 39)

/-- The 404 detail string of lines 674-676. -/
def scanNotFoundMsg (scanId : String) : String :=
  "Scan " ++ quoteStr ++ scanId ++ quoteStr ++ " not found"

structure DiffResponse where
  beforeScan : String
  afterScan : String
  threshold : ℚ
  changeCount : ℕ
  events : List DiffEvent

/-- The `/spatial/diff` handler (lines 672-727).  It is returned together
with the scan store, which it never writes, to make the absence of
mutation part of the model; the human-readable `summary` string is
presentation only and not modelled. -/
noncomputable def spatial_diff (scans : List (String × ScanRec))
    (scanIdBefore scanIdAfter : String) (threshold : ℚ) :
    List (String × ScanRec) × Except String DiffResponse :=
  match alookup scans scanIdBefore with
  | none => (scans, .error (scanNotFoundMsg scanIdBefore))
  | some beforeScan =>
    match alookup scans scanIdAfter with
    | none => (scans, .error (scanNotFoundMsg scanIdAfter))
    | some afterScan =>
      let events := diffEvents (_latest_position_by_label beforeScan.detections)
        (_latest_position_by_label afterScan.detections) threshold
      (scans, .ok ⟨scanIdBefore, scanIdAfter, threshold, events.length, events⟩)

end DiffEngine

/-! ## Generic lemmas about the association-list model -/

lemma alookup_eq_none_iff {β : Type} (c : List (String × β)) (k : String) :
    alookup c k = none ↔ k ∉ c.map Prod.fst := by
  induction c with
  | nil => simp [alookup]
  | cons hd tl ih =>
    obtain ⟨k0, v0⟩ := hd
    by_cases h : k0 = k
    · subst h
      simp [alookup]
    · simp [alookup, h, ih, Ne.symm h]

lemma alookup_aerase_self {β : Type} (c : List (String × β)) (k : String)
    (h : (c.map Prod.fst).Nodup) : alookup (aerase c k) k = none := by
  induction c with
  | nil => rfl
  | cons hd tl ih =>
    obtain ⟨k0, v0⟩ := hd
    simp only [List.map_cons, List.nodup_cons] at h
    by_cases hk : k0 = k
    · subst hk
      simpa [aerase, alookup_eq_none_iff] using h.1
    · simpa [aerase, hk, alookup] using ih h.2

lemma map_fst_upsert {β : Type} (m : List (String × β)) (k : String) (v : β) :
    (upsert m k v).map Prod.fst =
      if k ∈ m.map Prod.fst then m.map Prod.fst else m.map Prod.fst ++ [k] := by
  induction m with
  | nil => simp [upsert]
  | cons hd tl ih =>
    obtain ⟨k0, v0⟩ := hd
    by_cases h : k0 = k
    · subst h
      simp [upsert]
    · simp only [upsert, if_neg h, List.map_cons, ih]
      by_cases hm : k ∈ tl.map Prod.fst
      · simp [hm, Ne.symm h]
      · simp [hm, Ne.symm h]

lemma nodup_map_fst_upsert {β : Type} (m : List (String × β)) (k : String) (v : β)
    (h : (m.map Prod.fst).Nodup) : ((upsert m k v).map Prod.fst).Nodup := by
  rw [map_fst_upsert]
  by_cases hm : k ∈ m.map Prod.fst
  · simpa [hm] using h
  · simp only [hm, if_false]
    simp [List.nodup_append, h, hm]

/-! ## Claim C3 — Semantic Memory Index alignment (code-bug exhibit) -/

/-- Claim C3: the vector index and the metadata list are meant to stay
positionally aligned, including when persisted state is loaded.  Exhibit of
the failing input: when the persisted index file holds one vector but the
metadata sidecar file is absent, `_ensure_init` loads the vector while the
metadata list stays empty, so the counts diverge (1 vector, 0 metadata
entries) at the very first state of the index's lifetime. -/
theorem claim3_index_metadata_misalignment :
    (SpatialMemory.ensureInit true (some [[1]]) none SpatialMemory.emptyState).index
        = some [[1]] ∧
    (SpatialMemory.ensureInit true (some [[1]]) none SpatialMemory.emptyState).metadata
        = [] := by
  constructor <;> with_unfolding_all decide

/-! ## Claim C5 — Sampling Policy -/

/-- Claim C5: for every frame `n ≥ 1` the object detector runs exactly when
`n % detectionStride == 1` (with stride 2: frames 1, 3, 5, …); on frames
where it does not run, the stage still records the stored frame path and
emits no detections. -/
theorem claim5_sampling_policy (detectOutcome : List Det × String)
    (storeOutcome : String) (n stride : ℕ) (_hn : 1 ≤ n) :
    (shouldRunYolo n stride = true ↔ n % stride = 1) ∧
    (shouldRunYolo n 2 = true ↔ n % 2 = 1) ∧
    (n % stride ≠ 1 →
      (detectionStage detectOutcome storeOutcome n stride).1 = [] ∧
      (detectionStage detectOutcome storeOutcome n stride).2 = storeOutcome) ∧
    (n % stride = 1 →
      detectionStage detectOutcome storeOutcome n stride = detectOutcome) := by
  refine ⟨by simp [shouldRunYolo], by simp [shouldRunYolo], fun h => ?_, fun h => ?_⟩
  · simp [detectionStage, shouldRunYolo, h]
  · simp [detectionStage, shouldRunYolo, h]

theorem claim5_sampling_policy_witness :
    (1 ≤ 4 ∧ 4 % 2 ≠ 1) ∧
    (detectionStage ([], "det") "stored" 4 2).1 = [] ∧
    (detectionStage ([], "det") "stored" 4 2).2 = "stored" :=
  ⟨⟨by decide, by decide⟩,
    (claim5_sampling_policy ([], "det") "stored" 4 2 (by decide)).2.2.1 (by decide)⟩

/-! ## Claim C6 — stride 1 disables the gated stages -/

/-- Claim C6: stride 1 is an accepted configuration (`_int_env` clamps to a
minimum of 1), and with stride 1 the gate `n % 1 == 1` is never true, so
the detector never runs; the same gate governs the Gemini describer. -/
theorem claim6_stride_one_never_runs (g : Bool) (n : ℕ) (_hn : 1 ≤ n) :
    _int_env (some (some 1)) 2 1 = 1 ∧
    (∀ v d : ℤ, 1 ≤ _int_env (some (some v)) d 1) ∧
    n % 1 = 0 ∧
    shouldRunYolo n 1 = false ∧
    runGemini g n 1 = false := by
  refine ⟨by decide, fun v d => le_max_left 1 v, Nat.mod_one n, ?_, ?_⟩
  · simp [shouldRunYolo, Nat.mod_one]
  · simp [runGemini, Nat.mod_one]

theorem claim6_stride_one_never_runs_witness :
    (1 ≤ 7) ∧ shouldRunYolo 7 1 = false ∧ runGemini true 7 1 = false :=
  ⟨by decide, (claim6_stride_one_never_runs true 7 (by decide)).2.2.2.1,
    (claim6_stride_one_never_runs true 7 (by decide)).2.2.2.2⟩

/-! ## Claim C4 — Label Fusion Cache TTL -/

/-- Claim C4: for a detection without a fresh semantic result, a cache
entry whose age is at most the TTL supplies the displayed name and details
and the cache is left unchanged; an entry older than the TTL is evicted
and the view falls back to the detection's own semantic fields, else the
raw detector label.  Consequently a label cached at t = 0 read at
t = TTL − ε (0 ≤ ε ≤ TTL) comes from the cache, while a read at
t = TTL + ε (ε > 0) returns the fallback label and the key is gone
afterwards. -/
theorem claim4_label_cache_ttl (bucketPx : ℤ) (ttl : ℚ) (cache : LabelCache)
    (d : Det) (ts : ℚ) (hfresh : truthyOpt d.geminiName = false)
    (hnodup : (cache.map Prod.fst).Nodup) :
    (∀ e, alookup cache (_object_key_from_detection bucketPx d) = some e →
      (ts - e.updatedAt ≤ ttl →
        fuseDetectionLabel bucketPx ttl cache d ts = (e.name, e.details, cache)) ∧
      (ttl < ts - e.updatedAt →
        fuseDetectionLabel bucketPx ttl cache d ts =
          (d.geminiName.getD d.label, d.geminiDetails.getD "",
            aerase cache (_object_key_from_detection bucketPx d)) ∧
        alookup (fuseDetectionLabel bucketPx ttl cache d ts).2.2
          (_object_key_from_detection bucketPx d) = none)) ∧
    (∀ nm dt ε, 0 ≤ ε → ε ≤ ttl →
      alookup cache (_object_key_from_detection bucketPx d) = some ⟨nm, dt, 0⟩ →
      (fuseDetectionLabel bucketPx ttl cache d (ttl - ε)).1 = nm) ∧
    (∀ nm dt ε, 0 < ε →
      alookup cache (_object_key_from_detection bucketPx d) = some ⟨nm, dt, 0⟩ →
      (fuseDetectionLabel bucketPx ttl cache d (ttl + ε)).1 = d.geminiName.getD d.label ∧
      alookup (fuseDetectionLabel bucketPx ttl cache d (ttl + ε)).2.2
        (_object_key_from_detection bucketPx d) = none) := by
  have main : ∀ (t : ℚ) e, alookup cache (_object_key_from_detection bucketPx d) = some e →
      (t - e.updatedAt ≤ ttl →
        fuseDetectionLabel bucketPx ttl cache d t = (e.name, e.details, cache)) ∧
      (ttl < t - e.updatedAt →
        fuseDetectionLabel bucketPx ttl cache d t =
          (d.geminiName.getD d.label, d.geminiDetails.getD "",
            aerase cache (_object_key_from_detection bucketPx d))) := by
    intro t e he
    constructor
    · intro hage
      simp [fuseDetectionLabel, hfresh, he, hage]
    · intro hage
      simp [fuseDetectionLabel, hfresh, he, not_le.mpr hage]
  refine ⟨?_, ?_, ?_⟩
  · intro e he
    refine ⟨(main ts e he).1, fun hage => ?_⟩
    have heq := (main ts e he).2 hage
    refine ⟨heq, ?_⟩
    rw [heq]
    exact alookup_aerase_self cache _ hnodup
  · intro nm dt ε hε0 hεttl he
    have hage : (ttl - ε) - (⟨nm, dt, 0⟩ : CachedLabel).updatedAt ≤ ttl := by
      simp only []
      linarith
    rw [(main (ttl - ε) ⟨nm, dt, 0⟩ he).1 hage]
  · intro nm dt ε hε0 he
    have hage : ttl < (ttl + ε) - (⟨nm, dt, 0⟩ : CachedLabel).updatedAt := by
      simp only []
      linarith
    have heq := (main (ttl + ε) ⟨nm, dt, 0⟩ he).2 hage
    refine ⟨by rw [heq], ?_⟩
    rw [heq]
    exact alookup_aerase_self cache _ hnodup

theorem claim4_label_cache_ttl_witness :
    (truthyOpt (none : Option String) = false ∧
      (([("cup_cell_0_0_0", (⟨"mug", "white", 0⟩ : CachedLabel))].map Prod.fst).Nodup) ∧
      (0 : ℚ) ≤ 1 ∧ (1 : ℚ) ≤ 20 ∧ (0 : ℚ) < 1 ∧
      alookup [("cup_cell_0_0_0", (⟨"mug", "white", 0⟩ : CachedLabel))]
        (_object_key_from_detection 96
          ⟨"cup", -1, 1, [0, 0, 0, 0], ⟨0, 0, 0⟩, "", none, none⟩) =
        some ⟨"mug", "white", 0⟩) ∧
    (fuseDetectionLabel 96 20 [("cup_cell_0_0_0", ⟨"mug", "white", 0⟩)]
      ⟨"cup", -1, 1, [0, 0, 0, 0], ⟨0, 0, 0⟩, "", none, none⟩ (20 - 1)).1 = "mug" ∧
    (fuseDetectionLabel 96 20 [("cup_cell_0_0_0", ⟨"mug", "white", 0⟩)]
      ⟨"cup", -1, 1, [0, 0, 0, 0], ⟨0, 0, 0⟩, "", none, none⟩ (20 + 1)).1 = "cup" ∧
    alookup (fuseDetectionLabel 96 20 [("cup_cell_0_0_0", ⟨"mug", "white", 0⟩)]
      ⟨"cup", -1, 1, [0, 0, 0, 0], ⟨0, 0, 0⟩, "", none, none⟩ (20 + 1)).2.2
      (_object_key_from_detection 96
        ⟨"cup", -1, 1, [0, 0, 0, 0], ⟨0, 0, 0⟩, "", none, none⟩) = none :=
  ⟨⟨by decide, by decide, by decide, by with_unfolding_all decide,
    by with_unfolding_all decide, by with_unfolding_all decide⟩,
   (claim4_label_cache_ttl 96 20 [("cup_cell_0_0_0", ⟨"mug", "white", 0⟩)]
      ⟨"cup", -1, 1, [0, 0, 0, 0], ⟨0, 0, 0⟩, "", none, none⟩ (20 - 1)
      (by decide) (by decide)).2.1 "mug" "white" 1
      (by with_unfolding_all decide) (by with_unfolding_all decide)
      (by with_unfolding_all decide),
   ((claim4_label_cache_ttl 96 20 [("cup_cell_0_0_0", ⟨"mug", "white", 0⟩)]
      ⟨"cup", -1, 1, [0, 0, 0, 0], ⟨0, 0, 0⟩, "", none, none⟩ (20 + 1)
      (by decide) (by decide)).2.2 "mug" "white" 1
      (by with_unfolding_all decide) (by with_unfolding_all decide)).1,
   ((claim4_label_cache_ttl 96 20 [("cup_cell_0_0_0", ⟨"mug", "white", 0⟩)]
      ⟨"cup", -1, 1, [0, 0, 0, 0], ⟨0, 0, 0⟩, "", none, none⟩ (20 + 1)
      (by decide) (by decide)).2.2 "mug" "white" 1
      (by with_unfolding_all decide) (by with_unfolding_all decide)).2⟩

/-! ## Claim C8 — Pose Transform -/

/-- Claim C8: for all orientation angles (degrees) the pose output is the
row-major flattening of the 4×4 homogeneous matrix whose upper-left 3×3
block is Rz(alpha)·Rx(beta)·Ry(gamma) (radians, composed in exactly that
order) with zero translation and bottom row (0,0,0,1); at
alpha = beta = gamma = 0 it is the identity pose matrix. -/
theorem claim8_pose_transform (alpha beta gamma : ℝ) :
    (_pose_matrix_from_orientation alpha beta gamma).length = 16 ∧
    _rotation_matrix_from_orientation alpha beta gamma =
      rotZ (radiansOf alpha) * rotX (radiansOf beta) * rotY (radiansOf gamma) ∧
    _pose_matrix_from_orientation alpha beta gamma =
      [_rotation_matrix_from_orientation alpha beta gamma 0 0,
       _rotation_matrix_from_orientation alpha beta gamma 0 1,
       _rotation_matrix_from_orientation alpha beta gamma 0 2, 0,
       _rotation_matrix_from_orientation alpha beta gamma 1 0,
       _rotation_matrix_from_orientation alpha beta gamma 1 1,
       _rotation_matrix_from_orientation alpha beta gamma 1 2, 0,
       _rotation_matrix_from_orientation alpha beta gamma 2 0,
       _rotation_matrix_from_orientation alpha beta gamma 2 1,
       _rotation_matrix_from_orientation alpha beta gamma 2 2, 0,
       0, 0, 0, 1] ∧
    _pose_matrix_from_orientation 0 0 0 =
      [1, 0, 0, 0, 0, 1, 0, 0, 0, 0, 1, 0, 0, 0, 0, 1] := by
  have h0 : radiansOf 0 = 0 := by simp [radiansOf]
  have hz : rotZ 0 = 1 := by
    rw [Matrix.one_fin_three]
    simp [rotZ]
  have hx : rotX 0 = 1 := by
    rw [Matrix.one_fin_three]
    simp [rotX]
  have hy : rotY 0 = 1 := by
    rw [Matrix.one_fin_three]
    simp [rotY]
  have hrot : _rotation_matrix_from_orientation 0 0 0 = 1 := by
    rw [_rotation_matrix_from_orientation, h0, hz, hx, hy, one_mul, one_mul]
  refine ⟨rfl, rfl, rfl, ?_⟩
  simp [_pose_matrix_from_orientation, hrot, Matrix.one_apply]

/-! ## Claim C9 — partial-failure isolation of the semantic merge -/

lemma mergeObsStep_foldl_fst (scanId clientId : String) (detections : List Det)
    (timestamp : ℚ) (framePath : String) (addThrows : GObj → Bool) :
    ∀ (objs : List GObj) (acc : ScanRec × List MemMeta),
      (objs.foldl (mergeObsStep scanId clientId detections timestamp framePath addThrows)
          acc).1 =
        { acc.1 with objects := acc.1.objects ++ objs.map (semObsOf detections timestamp framePath) }
  | [], acc => by simp
  | obj :: objs, acc => by
    have ih := mergeObsStep_foldl_fst scanId clientId detections timestamp framePath addThrows
      objs (mergeObsStep scanId clientId detections timestamp framePath addThrows acc obj)
    rw [List.foldl_cons, ih]
    by_cases h : addThrows obj
    · simp [mergeObsStep, h]
    · simp [mergeObsStep, h]

lemma mergeObsStep_foldl_snd (scanId clientId : String) (detections : List Det)
    (timestamp : ℚ) (framePath : String) (addThrows : GObj → Bool) :
    ∀ (objs : List GObj) (acc : ScanRec × List MemMeta),
      (objs.foldl (mergeObsStep scanId clientId detections timestamp framePath addThrows)
          acc).2 =
        acc.2 ++ (objs.filter (fun o => !addThrows o)).map (obsMetaOf scanId clientId detections timestamp framePath)
  | [], acc => by simp
  | obj :: objs, acc => by
    have ih := mergeObsStep_foldl_snd scanId clientId detections timestamp framePath addThrows
      objs (mergeObsStep scanId clientId detections timestamp framePath addThrows acc obj)
    rw [List.foldl_cons, ih]
    by_cases h : addThrows obj
    · simp [mergeObsStep, h]
    · simp [mergeObsStep, h]

/-- Claim C9 (amended): perception state always commits — the frame counter
is bumped and the detection history appended whatever the semantic stage
does; a failing description call (`describeOutcome = none`) produces no
Gemini objects, so every semantic addition is skipped and counters are
untouched; but a failing semantic-index add skips only that index entry:
the semantic observation is still appended to the scan record and counted. -/
theorem claim9_partial_failure_isolation
    (scanId clientId : String) (r : ScanRec) (memIndex : List MemMeta)
    (detections : List Det) (geminiObjects : List GObj) (timestamp : ℚ)
    (framePath : String) (addThrows : GObj → Bool)
    (geminiAvailable : Bool) (frameCount strideGemini maxCrops : ℕ) (crops : List Bool) :
    ((mergeFrame scanId clientId r memIndex detections geminiObjects timestamp framePath
        addThrows).1.frames = r.frames + 1) ∧
    ((mergeFrame scanId clientId r memIndex detections geminiObjects timestamp framePath
        addThrows).1.detections = r.detections ++ detections.map (detRecOf timestamp)) ∧
    (geminiDescribeStage geminiAvailable frameCount strideGemini maxCrops detections
        crops none = []) ∧
    ((mergeFrame scanId clientId r memIndex detections [] timestamp framePath
        addThrows).1.objects = r.objects ∧
      (mergeFrame scanId clientId r memIndex detections [] timestamp framePath
        addThrows).2 = memIndex ∧
      (mergeFrame scanId clientId r memIndex detections [] timestamp framePath
        addThrows).1.objectCount = r.objectCount) ∧
    ((mergeFrame scanId clientId r memIndex detections geminiObjects timestamp framePath
        addThrows).2 = memIndex ++ (geminiObjects.filter (fun o => !addThrows o)).map
          (obsMetaOf scanId clientId detections timestamp framePath)) ∧
    ((mergeFrame scanId clientId r memIndex detections geminiObjects timestamp framePath
        addThrows).1.objects = r.objects ++
          geminiObjects.map (semObsOf detections timestamp framePath)) ∧
    ((mergeFrame scanId clientId r memIndex detections geminiObjects timestamp framePath
        addThrows).1.objectCount = r.objectCount + geminiObjects.length) := by
  refine ⟨?_, ?_, by simp [geminiDescribeStage], ⟨?_, ?_, ?_⟩, ?_, ?_, ?_⟩ <;>
    simp only [mergeFrame, mergeObsStep_foldl_fst, mergeObsStep_foldl_snd,
      _record_detections] <;>
    cases detections <;> by_cases h : framePath ≠ "" <;> simp [h]

/-- Claim C9 counterexample: at a frame whose only Gemini object fails the
semantic-index add, the index entry is skipped but the semantic observation
is still appended to the scan record and counted — the semantic additions
for the frame are not all skipped, contradicting the claim as stated. -/
theorem claim9_counterexample :
    (mergeFrame "s" "c" ⟨"s", "scanning", none, 0, 0, [], [], [], none, none⟩ []
      [] [⟨"chair", ⟨0, 0, 0⟩, "red", [], -1, "chair", 1⟩] 5 "p" (fun _ => true)).2 = [] ∧
    (mergeFrame "s" "c" ⟨"s", "scanning", none, 0, 0, [], [], [], none, none⟩ []
      [] [⟨"chair", ⟨0, 0, 0⟩, "red", [], -1, "chair", 1⟩] 5 "p"
        (fun _ => true)).1.objects.length = 1 ∧
    (mergeFrame "s" "c" ⟨"s", "scanning", none, 0, 0, [], [], [], none, none⟩ []
      [] [⟨"chair", ⟨0, 0, 0⟩, "red", [], -1, "chair", 1⟩] 5 "p"
        (fun _ => true)).1.objectCount = 1 := by
  refine ⟨?_, ?_, ?_⟩ <;> with_unfolding_all decide

/-! ## Claim C7 — Identity Resolver -/

lemma string_data_inj {s t : String} (h : s.data = t.data) : s = t :=
  String.ext h

lemma digitsRevAux_eq_digits : ∀ (fuel n : ℕ), n ≤ fuel → digitsRevAux fuel n = Nat.digits 10 n
  | 0, n, h => by
    interval_cases n
    simp [digitsRevAux]
  | fuel + 1, n, h => by
    by_cases hn : n = 0
    · subst hn
      simp [digitsRevAux]
    · have hdiv : n / 10 ≤ fuel := by
        have h10 : n / 10 < n := Nat.div_lt_self (Nat.pos_of_ne_zero hn) (by norm_num)
        omega
      simp only [digitsRevAux, if_neg hn]
      rw [digitsRevAux_eq_digits fuel (n / 10) hdiv,
        ← Nat.digits_def' (by norm_num : (1 : ℕ) < 10) (Nat.pos_of_ne_zero hn)]

lemma digitsRev_eq_digits (n : ℕ) : digitsRev n = Nat.digits 10 n :=
  digitsRevAux_eq_digits n n le_rfl

lemma digitChar_inj : ∀ d < 10, ∀ e < 10, digitChar d = digitChar e → d = e := by decide

lemma digitChar_ne_underscore : ∀ d < 10, digitChar d ≠ '_' := by decide

lemma digitChar_ne_dash : ∀ d < 10, digitChar d ≠ '-' := by decide

lemma digitChar_eq_zero_char : ∀ d < 10, digitChar d = '0' → d = 0 := by decide

lemma mem_natRepr_data (n : ℕ) :
    ∀ c ∈ (natRepr n).data, ∃ d, d < 10 ∧ c = digitChar d := by
  intro c hc
  unfold natRepr at hc
  by_cases hn : n = 0
  · rw [if_pos hn] at hc
    have : c = '0' := by simpa using hc
    exact ⟨0, by norm_num, by rw [this]; rfl⟩
  · rw [if_neg hn] at hc
    simp only [String.data] at hc
    rw [digitsRev_eq_digits] at hc
    obtain ⟨d, hd, hcd⟩ := List.mem_map.mp hc
    exact ⟨d, Nat.digits_lt_base (by norm_num) (List.mem_reverse.mp hd), hcd.symm⟩

lemma underscore_not_mem_natRepr (n : ℕ) : '_' ∉ (natRepr n).data := by
  intro h
  obtain ⟨d, hd, hc⟩ := mem_natRepr_data n _ h
  exact digitChar_ne_underscore d hd hc.symm

lemma dash_not_mem_natRepr (n : ℕ) : '-' ∉ (natRepr n).data := by
  intro h
  obtain ⟨d, hd, hc⟩ := mem_natRepr_data n _ h
  exact digitChar_ne_dash d hd hc.symm

lemma map_digitChar_inj : ∀ (l1 l2 : List ℕ), (∀ d ∈ l1, d < 10) → (∀ d ∈ l2, d < 10) →
    l1.map digitChar = l2.map digitChar → l1 = l2
  | [], [], _, _, _ => rfl
  | [], _ :: _, _, _, h => by simp at h
  | _ :: _, [], _, _, h => by simp at h
  | a :: l1, b :: l2, h1, h2, h => by
    simp only [List.map_cons, List.cons.injEq] at h
    have hab : a = b := digitChar_inj a (h1 a (List.mem_cons_self a l1))
      b (h2 b (List.mem_cons_self b l2)) h.1
    subst hab
    rw [map_digitChar_inj l1 l2 (fun d hd => h1 d (List.mem_cons_of_mem _ hd))
      (fun d hd => h2 d (List.mem_cons_of_mem _ hd)) h.2]

lemma natRepr_ne_zero_str {n : ℕ} (hn : n ≠ 0) : natRepr n ≠ "0" := by
  intro h
  have hd : ((digitsRev n).reverse.map digitChar) = ['0'] := by
    have := congrArg String.data h
    rw [natRepr, if_neg hn] at this
    simpa using this
  rw [digitsRev_eq_digits] at hd
  cases hdig : Nat.digits 10 n with
  | nil => rw [hdig] at hd; simp at hd
  | cons d rest =>
    cases rest with
    | nil =>
      rw [hdig] at hd
      simp only [List.reverse_cons, List.reverse_nil, List.nil_append, List.map_cons,
        List.map_nil, List.cons.injEq] at hd
      have hd10 : d < 10 := Nat.digits_lt_base (by norm_num) (by rw [hdig]; exact List.mem_cons_self _ _)
      have hd0 : d = 0 := digitChar_eq_zero_char d hd10 hd.1
      apply hn
      rw [← Nat.ofDigits_digits 10 n, hdig, hd0]
      simp [Nat.ofDigits]
    | cons d2 rest2 =>
      rw [hdig] at hd
      have := congrArg List.length hd
      simp at this

lemma natRepr_injective : Function.Injective natRepr := by
  intro m n h
  by_cases hm : m = 0 <;> by_cases hn : n = 0
  · rw [hm, hn]
  · exfalso
    rw [hm] at h
    exact natRepr_ne_zero_str hn h.symm
  · exfalso
    rw [hn] at h
    exact natRepr_ne_zero_str hm h
  · have hdata := congrArg String.data h
    rw [natRepr, natRepr, if_neg hm, if_neg hn] at hdata
    simp only [String.data] at hdata
    rw [digitsRev_eq_digits, digitsRev_eq_digits] at hdata
    have hrev : (Nat.digits 10 m).reverse = (Nat.digits 10 n).reverse :=
      map_digitChar_inj _ _
        (fun d hd => Nat.digits_lt_base (by norm_num) (List.mem_reverse.mp hd))
        (fun d hd => Nat.digits_lt_base (by norm_num) (List.mem_reverse.mp hd)) hdata
    have hdig : Nat.digits 10 m = Nat.digits 10 n := by
      have := congrArg List.reverse hrev
      simpa using this
    calc m = Nat.ofDigits 10 (Nat.digits 10 m) := (Nat.ofDigits_digits 10 m).symm
      _ = Nat.ofDigits 10 (Nat.digits 10 n) := by rw [hdig]
      _ = n := Nat.ofDigits_digits 10 n

lemma underscore_not_mem_intRepr (i : ℤ) : '_' ∉ (intRepr i).data := by
  unfold intRepr
  by_cases h : i < 0
  · rw [if_pos h, String.data_append]
    intro hmem
    rcases List.mem_append.mp hmem with h1 | h2
    · simp at h1
    · exact underscore_not_mem_natRepr _ h2
  · rw [if_neg h]
    exact underscore_not_mem_natRepr _

lemma intRepr_injective : Function.Injective intRepr := by
  intro i j h
  unfold intRepr at h
  by_cases hi : i < 0 <;> by_cases hj : j < 0
  · rw [if_pos hi, if_pos hj] at h
    have hdata := congrArg String.data h
    rw [String.data_append, String.data_append] at hdata
    have htail : (natRepr i.natAbs).data = (natRepr j.natAbs).data := by
      simpa using hdata
    have habs : i.natAbs = j.natAbs := natRepr_injective (string_data_inj htail)
    omega
  · exfalso
    rw [if_pos hi, if_neg hj] at h
    have hdata := congrArg String.data h
    rw [String.data_append] at hdata
    apply dash_not_mem_natRepr j.natAbs
    rw [← hdata]
    simp
  · exfalso
    rw [if_neg hi, if_pos hj] at h
    have hdata := congrArg String.data h
    rw [String.data_append] at hdata
    apply dash_not_mem_natRepr i.natAbs
    rw [hdata]
    simp
  · rw [if_neg hi, if_neg hj] at h
    have habs : i.natAbs = j.natAbs := natRepr_injective h
    omega

lemma sep_split : ∀ (l1 l2 r1 r2 : List Char), '_' ∉ l1 → '_' ∉ l2 →
    l1 ++ '_' :: r1 = l2 ++ '_' :: r2 → l1 = l2 ∧ r1 = r2
  | [], [], r1, r2, _, _, h => by simpa using h
  | [], c :: l2, r1, r2, _, h2, h => by
    exfalso
    simp only [List.nil_append, List.cons_append, List.cons.injEq] at h
    exact h2 (h.1 ▸ List.mem_cons_self c l2)
  | c :: l1, [], r1, r2, h1, _, h => by
    exfalso
    simp only [List.nil_append, List.cons_append, List.cons.injEq] at h
    exact h1 (h.1 ▸ List.mem_cons_self c l1)
  | c1 :: l1, c2 :: l2, r1, r2, h1, h2, h => by
    simp only [List.cons_append, List.cons.injEq] at h
    obtain ⟨hc, ht⟩ := h
    have ih := sep_split l1 l2 r1 r2 (fun hm => h1 (List.mem_cons_of_mem _ hm))
      (fun hm => h2 (List.mem_cons_of_mem _ hm)) ht
    exact ⟨by rw [hc, ih.1], ih.2⟩

/-- The untracked object key written through the named cell helpers. -/
lemma object_key_untracked (B : ℤ) (d : Det) (h : ¬ d.trackId > -1) :
    _object_key_from_detection B d =
      d.label ++ "_cell_" ++ intRepr (fallbackCellX B d) ++ "_" ++
        intRepr (fallbackCellY B d) ++ "_" ++ intRepr (fallbackZBucket d) := by
  unfold _object_key_from_detection fallbackCellX fallbackCellY fallbackZBucket
  rw [if_neg h]

lemma object_key_untracked_eq_cells {B : ℤ} {d1 d2 : Det}
    (h1 : ¬ d1.trackId > -1) (h2 : ¬ d2.trackId > -1) (hl : d1.label = d2.label)
    (hkey : _object_key_from_detection B d1 = _object_key_from_detection B d2) :
    fallbackCellX B d1 = fallbackCellX B d2 ∧ fallbackCellY B d1 = fallbackCellY B d2 ∧
      fallbackZBucket d1 = fallbackZBucket d2 := by
  rw [object_key_untracked B d1 h1, object_key_untracked B d2 h2, hl] at hkey
  have hdata := congrArg String.data hkey
  simp only [String.data_append, List.append_assoc] at hdata
  have hdata2 := List.append_cancel_left hdata
  simp only [List.cons_append, List.singleton_append, List.nil_append, List.cons.injEq,
    true_and] at hdata2
  have hx := sep_split _ _ _ _ (underscore_not_mem_intRepr _) (underscore_not_mem_intRepr _)
    hdata2
  have hy := sep_split _ _ _ _ (underscore_not_mem_intRepr _) (underscore_not_mem_intRepr _)
    hx.2
  exact ⟨intRepr_injective (string_data_inj hx.1),
    intRepr_injective (string_data_inj hy.1), intRepr_injective (string_data_inj hy.2)⟩

/-- Claim C7 (amended): the ObjectKey is a pure function of the detection:
for tracked detections it is `label_trackerId` and depends on nothing else;
for untracked ones it is `label_cell_cellX_cellY_zBucket` built from the
bucketed bounding-box centre and z.  Two SAME-LABELLED tracker-less
detections agreeing on all three buckets share the key, and a centre shift
that crosses a bucket boundary (in x or in y) changes the key. -/
theorem claim7_object_key (B : ℤ) (d1 d2 : Det) :
    (d1.trackId > -1 →
      _object_key_from_detection B d1 = d1.label ++ "_" ++ intRepr d1.trackId) ∧
    (d1.trackId > -1 → d1.trackId = d2.trackId → d1.label = d2.label →
      _object_key_from_detection B d1 = _object_key_from_detection B d2) ∧
    (¬ d1.trackId > -1 →
      _object_key_from_detection B d1 = d1.label ++ "_cell_" ++
        intRepr (fallbackCellX B d1) ++ "_" ++ intRepr (fallbackCellY B d1) ++ "_" ++
        intRepr (fallbackZBucket d1)) ∧
    (¬ d1.trackId > -1 → ¬ d2.trackId > -1 → d1.label = d2.label →
      fallbackCellX B d1 = fallbackCellX B d2 → fallbackCellY B d1 = fallbackCellY B d2 →
      fallbackZBucket d1 = fallbackZBucket d2 →
      _object_key_from_detection B d1 = _object_key_from_detection B d2) ∧
    (¬ d1.trackId > -1 → ¬ d2.trackId > -1 → d1.label = d2.label →
      fallbackCellX B d1 ≠ fallbackCellX B d2 →
      _object_key_from_detection B d1 ≠ _object_key_from_detection B d2) ∧
    (¬ d1.trackId > -1 → ¬ d2.trackId > -1 → d1.label = d2.label →
      fallbackCellY B d1 ≠ fallbackCellY B d2 →
      _object_key_from_detection B d1 ≠ _object_key_from_detection B d2) := by
  refine ⟨?_, ?_, ?_, ?_, ?_, ?_⟩
  · intro h
    unfold _object_key_from_detection
    rw [if_pos h]
  · intro h ht hl
    unfold _object_key_from_detection
    rw [if_pos h, if_pos (ht ▸ h), ht, hl]
  · intro h
    exact object_key_untracked B d1 h
  · intro h1 h2 hl hx hy hz
    rw [object_key_untracked B d1 h1, object_key_untracked B d2 h2, hl, hx, hy, hz]
  · intro h1 h2 hl hx hkey
    exact hx (object_key_untracked_eq_cells h1 h2 hl hkey).1
  · intro h1 h2 hl hy hkey
    exact hy (object_key_untracked_eq_cells h1 h2 hl hkey).2.1

theorem claim7_object_key_witness :
    ((¬ (⟨"cup", -1, 1, [94, 0, 96, 0], ⟨0, 0, 0⟩, "", none, none⟩ : Det).trackId > -1) ∧
      (¬ (⟨"cup", -1, 1, [96, 0, 98, 0], ⟨0, 0, 0⟩, "", none, none⟩ : Det).trackId > -1) ∧
      (⟨"cup", -1, 1, [94, 0, 96, 0], ⟨0, 0, 0⟩, "", none, none⟩ : Det).label =
        (⟨"cup", -1, 1, [96, 0, 98, 0], ⟨0, 0, 0⟩, "", none, none⟩ : Det).label ∧
      fallbackCellX 96 ⟨"cup", -1, 1, [94, 0, 96, 0], ⟨0, 0, 0⟩, "", none, none⟩ ≠
        fallbackCellX 96 ⟨"cup", -1, 1, [96, 0, 98, 0], ⟨0, 0, 0⟩, "", none, none⟩) ∧
    _object_key_from_detection 96 ⟨"cup", -1, 1, [94, 0, 96, 0], ⟨0, 0, 0⟩, "", none, none⟩ ≠
      _object_key_from_detection 96 ⟨"cup", -1, 1, [96, 0, 98, 0], ⟨0, 0, 0⟩, "", none, none⟩ :=
  ⟨⟨by decide, by decide, rfl, by with_unfolding_all decide⟩,
    (claim7_object_key 96 ⟨"cup", -1, 1, [94, 0, 96, 0], ⟨0, 0, 0⟩, "", none, none⟩
      ⟨"cup", -1, 1, [96, 0, 98, 0], ⟨0, 0, 0⟩, "", none, none⟩).2.2.2.2.1
      (by decide) (by decide) rfl (by with_unfolding_all decide)⟩

/-- Claim C7 counterexample: two tracker-less detections in the same grid
cell with equal z-bucket but different labels get different keys, so the
claim's label-free phrasing fails as stated. -/
theorem claim7_counterexample :
    (¬ (⟨"a", -1, 1, [0, 0, 0, 0], ⟨0, 0, 0⟩, "", none, none⟩ : Det).trackId > -1) ∧
    (¬ (⟨"b", -1, 1, [0, 0, 0, 0], ⟨0, 0, 0⟩, "", none, none⟩ : Det).trackId > -1) ∧
    fallbackCellX 96 ⟨"a", -1, 1, [0, 0, 0, 0], ⟨0, 0, 0⟩, "", none, none⟩ =
      fallbackCellX 96 ⟨"b", -1, 1, [0, 0, 0, 0], ⟨0, 0, 0⟩, "", none, none⟩ ∧
    fallbackCellY 96 ⟨"a", -1, 1, [0, 0, 0, 0], ⟨0, 0, 0⟩, "", none, none⟩ =
      fallbackCellY 96 ⟨"b", -1, 1, [0, 0, 0, 0], ⟨0, 0, 0⟩, "", none, none⟩ ∧
    fallbackZBucket ⟨"a", -1, 1, [0, 0, 0, 0], ⟨0, 0, 0⟩, "", none, none⟩ =
      fallbackZBucket ⟨"b", -1, 1, [0, 0, 0, 0], ⟨0, 0, 0⟩, "", none, none⟩ ∧
    _object_key_from_detection 96 ⟨"a", -1, 1, [0, 0, 0, 0], ⟨0, 0, 0⟩, "", none, none⟩ ≠
      _object_key_from_detection 96 ⟨"b", -1, 1, [0, 0, 0, 0], ⟨0, 0, 0⟩, "", none, none⟩ := by
  refine ⟨by decide, by decide, ?_, ?_, ?_, ?_⟩ <;> with_unfolding_all decide

/-! ## Claim C2 — Semantic Memory search -/

lemma rankRel_total (score : ℕ → ℚ) : ∀ i j, rankRel score i j ∨ rankRel score j i := by
  intro i j
  rcases lt_trichotomy (score i) (score j) with h | h | h
  · exact Or.inr (Or.inl h)
  · rcases le_total i j with hij | hij
    · exact Or.inl (Or.inr ⟨h, hij⟩)
    · exact Or.inr (Or.inr ⟨h.symm, hij⟩)
  · exact Or.inl (Or.inl h)

lemma rankRel_trans (score : ℕ → ℚ) :
    ∀ i j l, rankRel score i j → rankRel score j l → rankRel score i l := by
  intro i j l hij hjl
  rcases hij with h1 | ⟨h1, h1'⟩ <;> rcases hjl with h2 | ⟨h2, h2'⟩
  · exact Or.inl (h2.trans h1)
  · exact Or.inl (lt_of_eq_of_lt h2.symm h1)
  · exact Or.inl (lt_of_lt_of_eq h2 h1.symm)
  · exact Or.inr ⟨h1.trans h2, h1'.trans h2'⟩

lemma rankRel_to_ge (score : ℕ → ℚ) {i j : ℕ} (h : rankRel score i j) :
    score j ≤ score i := by
  rcases h with h | ⟨h, _⟩
  · exact h.le
  · exact h.ge

lemma collectResults_length_le (metadata : List MemMeta) (F : Option String) (k : ℕ)
    (scoreOf : ℤ → ℚ) :
    ∀ (labels : List ℤ) (n : ℕ), n < k →
      (collectResults metadata F k scoreOf labels n).length ≤ k - n
  | [], n, _ => by simp [collectResults]
  | idx :: rest, n, hn => by
    simp only [collectResults]
    by_cases hv : idx = -1 ∨ (metadata.length : ℤ) ≤ idx
    · rw [if_pos hv]
      exact collectResults_length_le metadata F k scoreOf rest n hn
    · rw [if_neg hv]
      by_cases hskip : (match F with
          | some sid => decide ((metadata.getD idx.toNat default).scanId ≠ sid)
          | none => false) = true
      · rw [if_pos hskip]
        exact collectResults_length_le metadata F k scoreOf rest n hn
      · rw [if_neg hskip]
        by_cases hk : k ≤ n + 1
        · rw [if_pos hk]
          simp only [List.length_singleton]
          omega
        · rw [if_neg hk]
          simp only [List.length_cons]
          have := collectResults_length_le metadata F k scoreOf rest (n + 1) (by omega)
          omega

lemma collectResults_sublist (metadata : List MemMeta) (F : Option String) (k : ℕ)
    (scoreOf : ℤ → ℚ) :
    ∀ (labels : List ℤ) (n : ℕ), ∃ sub : List ℤ, List.Sublist sub labels ∧
      (∀ idx ∈ sub, ¬(idx = -1 ∨ (metadata.length : ℤ) ≤ idx)) ∧
      collectResults metadata F k scoreOf labels n = sub.map (fun idx =>
        ⟨scoreOf idx, (metadata.getD idx.toNat default).text, metadata.getD idx.toNat default⟩)
  | [], n => ⟨[], by simp, by simp, by simp [collectResults]⟩
  | idx :: rest, n => by
    by_cases hv : idx = -1 ∨ (metadata.length : ℤ) ≤ idx
    · obtain ⟨sub, h1, h2, h3⟩ := collectResults_sublist metadata F k scoreOf rest n
      exact ⟨sub, h1.cons idx, h2, by simp only [collectResults, if_pos hv]; exact h3⟩
    · by_cases hskip : (match F with
          | some sid => decide ((metadata.getD idx.toNat default).scanId ≠ sid)
          | none => false) = true
      · obtain ⟨sub, h1, h2, h3⟩ := collectResults_sublist metadata F k scoreOf rest n
        exact ⟨sub, h1.cons idx, h2,
          by simp only [collectResults, if_neg hv, if_pos hskip]; exact h3⟩
      · by_cases hk : k ≤ n + 1
        · refine ⟨[idx], (List.nil_sublist rest).cons₂ idx, ?_, ?_⟩
          · intro x hx
            rw [List.mem_singleton.mp hx]
            exact hv
          · simp only [collectResults, if_neg hv, if_neg hskip, if_pos hk]
            rfl
        · obtain ⟨sub, h1, h2, h3⟩ := collectResults_sublist metadata F k scoreOf rest (n + 1)
          refine ⟨idx :: sub, h1.cons₂ idx, ?_, ?_⟩
          · intro x hx
            rcases List.mem_cons.mp hx with hx | hx
            · rw [hx]; exact hv
            · exact h2 x hx
          · simp only [collectResults, if_neg hv, if_neg hskip, if_neg hk, h3, List.map_cons]

lemma collectResults_no_break (metadata : List MemMeta) (sid : String) (k : ℕ)
    (scoreOf : ℤ → ℚ) :
    ∀ (labels : List ℤ) (n : ℕ),
      n + labels.countP (fun idx =>
        !(decide (idx = -1 ∨ (metadata.length : ℤ) ≤ idx)) &&
          decide ((metadata.getD idx.toNat default).scanId = sid)) < k →
      collectResults metadata (some sid) k scoreOf labels n =
        (labels.filter (fun idx =>
          !(decide (idx = -1 ∨ (metadata.length : ℤ) ≤ idx)) &&
            decide ((metadata.getD idx.toNat default).scanId = sid))).map (fun idx =>
          ⟨scoreOf idx, (metadata.getD idx.toNat default).text, metadata.getD idx.toNat default⟩)
  | [], n, _ => by simp [collectResults]
  | idx :: rest, n, hcount => by
    rw [List.countP_cons] at hcount
    by_cases hv : idx = -1 ∨ (metadata.length : ℤ) ≤ idx
    · have hgood : (!(decide (idx = -1 ∨ (metadata.length : ℤ) ≤ idx)) &&
          decide ((metadata.getD idx.toNat default).scanId = sid)) = false := by
        rw [decide_eq_true hv]
        rfl
      rw [hgood] at hcount
      simp only [Bool.false_eq_true, if_false, Nat.add_zero] at hcount
      simp only [collectResults, if_pos hv, List.filter_cons, hgood, if_false,
        Bool.false_eq_true]
      exact collectResults_no_break metadata sid k scoreOf rest n hcount
    · by_cases hm : (metadata.getD idx.toNat default).scanId = sid
      · have hgood : (!(decide (idx = -1 ∨ (metadata.length : ℤ) ≤ idx)) &&
            decide ((metadata.getD idx.toNat default).scanId = sid)) = true := by
          rw [decide_eq_false hv, decide_eq_true hm]
          rfl
        rw [hgood] at hcount
        simp only [if_true] at hcount
        have hskip : decide ((metadata.getD idx.toNat default).scanId ≠ sid) = false :=
          decide_eq_false (not_not_intro hm)
        have hk : ¬ k ≤ n + 1 := by omega
        simp only [collectResults, if_neg hv, hskip, Bool.false_eq_true, if_false, if_neg hk,
          List.filter_cons, hgood, if_true, List.map_cons]
        rw [collectResults_no_break metadata sid k scoreOf rest (n + 1) (by omega)]
      · have hgood : (!(decide (idx = -1 ∨ (metadata.length : ℤ) ≤ idx)) &&
            decide ((metadata.getD idx.toNat default).scanId = sid)) = false := by
          rw [decide_eq_false hm, Bool.and_false]
        rw [hgood] at hcount
        simp only [Bool.false_eq_true, if_false, Nat.add_zero] at hcount
        have hskip : decide ((metadata.getD idx.toNat default).scanId ≠ sid) = true :=
          decide_eq_true hm
        simp only [collectResults, if_neg hv, hskip, if_true, List.filter_cons, hgood,
          Bool.false_eq_true, if_false]
        exact collectResults_no_break metadata sid k scoreOf rest n hcount

lemma map_getD_range {α : Type} (l : List α) (d : α) :
    (List.range l.length).map (fun i => l.getD i d) = l := by
  induction l with
  | nil => simp
  | cons a t ih =>
    rw [List.length_cons, List.range_succ_eq_map, List.map_cons, List.map_map]
    have hcomp : ((fun i => (a :: t).getD i d) ∘ (· + 1)) = fun i => t.getD i d := by
      funext i
      simp [List.getD_cons_succ]
    rw [hcomp, ih]
    rfl

lemma countP_range_getD {α : Type} (l : List α) (d : α) (p : α → Bool) :
    (List.range l.length).countP (fun i => p (l.getD i d)) = l.countP p := by
  conv_rhs => rw [← map_getD_range l d]
  rw [List.countP_map]
  rfl

lemma filter_range_getD {α : Type} (l : List α) (d : α) (p : α → Bool) :
    ((List.range l.length).filter (fun i => p (l.getD i d))).map (fun i => l.getD i d) =
      l.filter p := by
  conv_rhs => rw [← map_getD_range l d]
  rw [List.filter_map]
  rfl

/-- Scores of collected search results are in descending order: the FAISS
labels come back ranked, collection only drops elements, and padding labels
are never collected. -/
lemma search_scores_sorted (metadata : List MemMeta) (F : Option String) (k : ℕ)
    (vs : List Vec) (qv : Vec) (searchK : ℕ) :
    List.Sorted (fun a b => b ≤ a)
      ((collectResults metadata F k (fun idx => innerProd qv (vs.getD idx.toNat []))
        (faissSearchLabels vs qv searchK) 0).map (fun r => r.score)) := by
  obtain ⟨sub, hsub, hvalid, heq⟩ := collectResults_sublist metadata F k
    (fun idx => innerProd qv (vs.getD idx.toNat [])) (faissSearchLabels vs qv searchK) 0
  rw [heq, List.map_map]
  show List.Pairwise _ (sub.map fun idx => innerProd qv (vs.getD idx.toNat []))
  rw [List.pairwise_map]
  unfold faissSearchLabels at hsub
  obtain ⟨s1, s2, hsplit, hs1, hs2⟩ := List.sublist_append_iff.mp hsub
  have hs2nil : s2 = [] := by
    rw [List.eq_nil_iff_forall_not_mem]
    intro x hx
    have hx1 : x = -1 := List.eq_of_mem_replicate (hs2.subset hx)
    have hmem : x ∈ sub := by
      rw [hsplit]
      exact List.mem_append_right s1 hx
    exact hvalid x hmem (Or.inl hx1)
  rw [hs2nil, List.append_nil] at hsplit
  subst hsplit
  haveI : IsTotal ℕ (rankRel (fun i => innerProd qv (vs.getD i []))) :=
    ⟨rankRel_total _⟩
  haveI : IsTrans ℕ (rankRel (fun i => innerProd qv (vs.getD i []))) :=
    ⟨rankRel_trans _⟩
  have hsorted : List.Pairwise (rankRel (fun i => innerProd qv (vs.getD i [])))
      (List.insertionSort (rankRel (fun i => innerProd qv (vs.getD i [])))
        (List.range vs.length)) :=
    List.sorted_insertionSort _ _
  have hpair : List.Pairwise (fun a b : ℤ =>
      innerProd qv (vs.getD b.toNat []) ≤ innerProd qv (vs.getD a.toNat []))
      (((List.insertionSort (rankRel (fun i => innerProd qv (vs.getD i [])))
        (List.range vs.length)).take searchK).map Int.ofNat) := by
    rw [List.pairwise_map]
    exact ((hsorted.sublist (List.take_sublist searchK _)).imp fun h => rankRel_to_ge _ h)
  exact hpair.sublist hs1

/-- When every stored vector fits in the over-fetch window, a scan-filtered
search walks all vectors in ranked order, so filtering recovers exactly the
matching metadata entries. -/
lemma search_filtered_complete (metadata : List MemMeta) (sid : String) (k : ℕ)
    (vs : List Vec) (qv : Vec)
    (halign : vs.length = metadata.length) (hsize : vs.length ≤ k * 10)
    (hM : metadata.countP (fun m => decide (m.scanId = sid)) < k) :
    (collectResults metadata (some sid) k (fun idx => innerProd qv (vs.getD idx.toNat []))
        (faissSearchLabels vs qv (k * 10)) 0).length =
      metadata.countP (fun m => decide (m.scanId = sid)) ∧
    List.Perm ((collectResults metadata (some sid) k
        (fun idx => innerProd qv (vs.getD idx.toNat []))
        (faissSearchLabels vs qv (k * 10)) 0).map (fun r => r.metadata))
      (metadata.filter (fun m => decide (m.scanId = sid))) := by
  set sc : ℕ → ℚ := fun i => innerProd qv (vs.getD i []) with hsc
  set ranked := List.insertionSort (rankRel sc) (List.range vs.length) with hranked
  set good : ℤ → Bool := fun idx =>
    !(decide (idx = -1 ∨ (metadata.length : ℤ) ≤ idx)) &&
      decide ((metadata.getD idx.toNat default).scanId = sid) with hgood
  have hrankedlen : ranked.length = vs.length := by
    rw [hranked, (List.perm_insertionSort _ _).length_eq, List.length_range]
  have htake : ranked.take (k * 10) = ranked := by
    apply List.take_of_length_le
    rw [hrankedlen]
    exact hsize
  have hlabels : faissSearchLabels vs qv (k * 10) =
      ranked.map Int.ofNat ++ List.replicate (k * 10 - vs.length) (-1) := by
    simp only [faissSearchLabels]
    rw [← hranked, htake]
  have hgoodofnat : ∀ i ∈ List.range vs.length,
      good (Int.ofNat i) = decide ((metadata.getD i default).scanId = sid) := by
    intro i hi
    rw [List.mem_range] at hi
    have h1 : ¬(Int.ofNat i = -1 ∨ (metadata.length : ℤ) ≤ Int.ofNat i) := by
      simp only [Int.ofNat_eq_natCast]
      push_neg
      constructor
      · omega
      · rw [← halign]
        omega
    simp only [hgood]
    rw [decide_eq_false h1, Bool.not_false, Bool.true_and]
    rfl
  have hpad : ∀ x ∈ List.replicate (k * 10 - vs.length) (-1 : ℤ), good x = false := by
    intro x hx
    rw [List.eq_of_mem_replicate hx]
    simp [hgood]
  have hcount : (faissSearchLabels vs qv (k * 10)).countP good =
      metadata.countP (fun m => decide (m.scanId = sid)) := by
    rw [hlabels, List.countP_append]
    have hpadzero : (List.replicate (k * 10 - vs.length) (-1 : ℤ)).countP good = 0 := by
      rw [List.countP_eq_zero]
      intro x hx
      rw [hpad x hx]
      simp
    rw [hpadzero, Nat.add_zero, List.countP_map]
    have hperm : List.Perm ranked (List.range vs.length) := by
      rw [hranked]
      exact List.perm_insertionSort _ _
    rw [hperm.countP_eq]
    have hgoodofnat' : ∀ i ∈ List.range vs.length,
        (good ∘ Int.ofNat) i = decide ((metadata.getD i default).scanId = sid) := hgoodofnat
    have hfc : (List.range vs.length).countP (good ∘ Int.ofNat) =
        (List.range metadata.length).countP
          (fun i => decide ((metadata.getD i default).scanId = sid)) := by
      rw [← halign]
      exact List.countP_congr (fun i hi => by rw [hgoodofnat' i hi])
    rw [hfc, countP_range_getD metadata default (fun m => decide (m.scanId = sid))]
  have heq := collectResults_no_break metadata sid k
    (fun idx => innerProd qv (vs.getD idx.toNat []))
    (faissSearchLabels vs qv (k * 10)) 0 (by rw [← hgood] at *; omega)
  rw [← hgood] at heq
  constructor
  · rw [heq, List.length_map, ← List.countP_eq_length_filter, hcount]
  · rw [heq, List.map_map]
    have hfiltermap : ((faissSearchLabels vs qv (k * 10)).filter good).map
        ((fun r : SearchResult => r.metadata) ∘ (fun idx =>
          (⟨innerProd qv (vs.getD idx.toNat []), (metadata.getD idx.toNat default).text,
            metadata.getD idx.toNat default⟩ : SearchResult))) =
        ((faissSearchLabels vs qv (k * 10)).filter good).map
          (fun idx => metadata.getD idx.toNat default) := rfl
    rw [hfiltermap, hlabels, List.filter_append]
    have hpadnil : (List.replicate (k * 10 - vs.length) (-1 : ℤ)).filter good = [] := by
      rw [List.filter_eq_nil_iff]
      intro x hx
      rw [hpad x hx]
      simp
    rw [hpadnil, List.append_nil, List.filter_map, List.map_map]
    have hcomp : ((fun idx : ℤ => metadata.getD idx.toNat default) ∘ Int.ofNat) =
        fun i : ℕ => metadata.getD i default := rfl
    rw [hcomp]
    have hperm : List.Perm (ranked.filter (good ∘ Int.ofNat))
        ((List.range vs.length).filter (good ∘ Int.ofNat)) := by
      rw [hranked]
      exact (List.perm_insertionSort _ _).filter _
    refine (hperm.map _).trans ?_
    have hgoodofnat' : ∀ i ∈ List.range vs.length,
        (good ∘ Int.ofNat) i = decide ((metadata.getD i default).scanId = sid) := hgoodofnat
    have hfc : (List.range vs.length).filter (good ∘ Int.ofNat) =
        (List.range metadata.length).filter
          (fun i => decide ((metadata.getD i default).scanId = sid)) := by
      rw [← halign]
      exact List.filter_congr (fun i hi => hgoodofnat' i hi)
    rw [hfc, filter_range_getD metadata default (fun m => decide (m.scanId = sid))]

/-- Claim C2 (amended): with the index available and initialized, search
with limit `k` returns at most `k` results, always in descending
similarity order; a scan-filtered search over metadata owning `M < k`
matching entries returns exactly those `M` entries in ranked order
PROVIDED the whole index fits in the `k*10` over-fetch window. -/
theorem claim2_search_ranked (embed : String → Vec) (diskIndex : Option (List Vec))
    (diskMeta : Option (List MemMeta)) (s : SpatialMemory) (query : String) (k : ℕ)
    (vs : List Vec) (hinit : s.initialized = true) (hidx : s.index = some vs) :
    ((SpatialMemory.search true true embed diskIndex diskMeta s query k none).length ≤ k) ∧
    (∀ F, List.Sorted (fun a b => b ≤ a)
      ((SpatialMemory.search true true embed diskIndex diskMeta s query k F).map
        (fun r => r.score))) ∧
    (∀ sid, vs.length = s.metadata.length → vs.length ≤ k * 10 →
      s.metadata.countP (fun m => decide (m.scanId = sid)) < k →
      (SpatialMemory.search true true embed diskIndex diskMeta s query k
        (some sid)).length = s.metadata.countP (fun m => decide (m.scanId = sid)) ∧
      List.Perm ((SpatialMemory.search true true embed diskIndex diskMeta s query k
          (some sid)).map (fun r => r.metadata))
        (s.metadata.filter (fun m => decide (m.scanId = sid)))) := by
  have hens : s.ensureInit true diskIndex diskMeta = s := by
    simp [SpatialMemory.ensureInit, hinit]
  have hsearch : ∀ F, SpatialMemory.search true true embed diskIndex diskMeta s query k F =
      collectResults s.metadata F k
        (fun idx => innerProd (embed query) (vs.getD idx.toNat []))
        (faissSearchLabels vs (embed query)
          (match F with | some _ => k * 10 | none => k)) 0 := by
    intro F
    simp only [SpatialMemory.search, hens, hidx, Bool.not_true, Bool.or_self,
      Bool.false_eq_true, if_false]
  refine ⟨?_, ?_, ?_⟩
  · have hred : (match (none : Option String) with
        | some _ => k * 10
        | none => k) = k := rfl
    rw [hsearch none, hred]
    rcases Nat.eq_zero_or_pos k with hk | hk
    · subst hk
      simp [faissSearchLabels, collectResults]
    · have := collectResults_length_le s.metadata none k
        (fun idx => innerProd (embed query) (vs.getD idx.toNat []))
        (faissSearchLabels vs (embed query) k) 0 hk
      omega
  · intro F
    rw [hsearch F]
    exact search_scores_sorted s.metadata F k vs (embed query) _
  · intro sid halign hsize hM
    rw [hsearch (some sid)]
    exact search_filtered_complete s.metadata sid k vs (embed query) halign hsize hM

theorem claim2_search_ranked_witness :
    ((SpatialMemory.mk [⟨"a", "s1", "", 0, [], -1, "", 0, ⟨0, 0, 0⟩, ""⟩,
        ⟨"b", "s2", "", 0, [], -1, "", 0, ⟨0, 0, 0⟩, ""⟩]
        (some [[1], [2]]) true).initialized = true ∧
      (SpatialMemory.mk [⟨"a", "s1", "", 0, [], -1, "", 0, ⟨0, 0, 0⟩, ""⟩,
        ⟨"b", "s2", "", 0, [], -1, "", 0, ⟨0, 0, 0⟩, ""⟩]
        (some [[1], [2]]) true).index = some [[1], [2]] ∧
      ([[1], [2]] : List Vec).length =
        (SpatialMemory.mk [⟨"a", "s1", "", 0, [], -1, "", 0, ⟨0, 0, 0⟩, ""⟩,
          ⟨"b", "s2", "", 0, [], -1, "", 0, ⟨0, 0, 0⟩, ""⟩]
          (some [[1], [2]]) true).metadata.length ∧
      ([[1], [2]] : List Vec).length ≤ 2 * 10 ∧
      (SpatialMemory.mk [⟨"a", "s1", "", 0, [], -1, "", 0, ⟨0, 0, 0⟩, ""⟩,
        ⟨"b", "s2", "", 0, [], -1, "", 0, ⟨0, 0, 0⟩, ""⟩]
        (some [[1], [2]]) true).metadata.countP (fun m => decide (m.scanId = "s1")) < 2) ∧
    (SpatialMemory.search true true (fun _ => [1]) none none
      (SpatialMemory.mk [⟨"a", "s1", "", 0, [], -1, "", 0, ⟨0, 0, 0⟩, ""⟩,
        ⟨"b", "s2", "", 0, [], -1, "", 0, ⟨0, 0, 0⟩, ""⟩]
        (some [[1], [2]]) true) "q" 2 (some "s1")).length =
      (SpatialMemory.mk [⟨"a", "s1", "", 0, [], -1, "", 0, ⟨0, 0, 0⟩, ""⟩,
        ⟨"b", "s2", "", 0, [], -1, "", 0, ⟨0, 0, 0⟩, ""⟩]
        (some [[1], [2]]) true).metadata.countP (fun m => decide (m.scanId = "s1")) ∧
    List.Perm ((SpatialMemory.search true true (fun _ => [1]) none none
        (SpatialMemory.mk [⟨"a", "s1", "", 0, [], -1, "", 0, ⟨0, 0, 0⟩, ""⟩,
          ⟨"b", "s2", "", 0, [], -1, "", 0, ⟨0, 0, 0⟩, ""⟩]
          (some [[1], [2]]) true) "q" 2 (some "s1")).map (fun r => r.metadata))
      ((SpatialMemory.mk [⟨"a", "s1", "", 0, [], -1, "", 0, ⟨0, 0, 0⟩, ""⟩,
        ⟨"b", "s2", "", 0, [], -1, "", 0, ⟨0, 0, 0⟩, ""⟩]
        (some [[1], [2]]) true).metadata.filter (fun m => decide (m.scanId = "s1"))) :=
  ⟨⟨rfl, rfl, rfl, by decide, by with_unfolding_all decide⟩,
    ((claim2_search_ranked (fun _ => [1]) none none
      (SpatialMemory.mk [⟨"a", "s1", "", 0, [], -1, "", 0, ⟨0, 0, 0⟩, ""⟩,
        ⟨"b", "s2", "", 0, [], -1, "", 0, ⟨0, 0, 0⟩, ""⟩]
        (some [[1], [2]]) true) "q" 2 [[1], [2]] rfl rfl).2.2 "s1" rfl (by decide)
        (by with_unfolding_all decide)).1,
    ((claim2_search_ranked (fun _ => [1]) none none
      (SpatialMemory.mk [⟨"a", "s1", "", 0, [], -1, "", 0, ⟨0, 0, 0⟩, ""⟩,
        ⟨"b", "s2", "", 0, [], -1, "", 0, ⟨0, 0, 0⟩, ""⟩]
        (some [[1], [2]]) true) "q" 2 [[1], [2]] rfl rfl).2.2 "s1" rfl (by decide)
        (by with_unfolding_all decide)).2⟩

/-- Claim C2 counterexample: with 22 indexed observations and k = 2, the
over-fetch window is k*10 = 20, so a scan filter owning M = 1 < k matching
observation that ranks 22nd returns nothing at all — not the M matching
results the claim promises. -/
theorem claim2_counterexample :
    (SpatialMemory.mk
        (List.replicate 21 ⟨"t", "s2", "", 0, [], -1, "", 0, ⟨0, 0, 0⟩, ""⟩ ++
          [⟨"u", "s1", "", 0, [], -1, "", 0, ⟨0, 0, 0⟩, ""⟩])
        (some (List.replicate 21 [2] ++ [[1]])) true).metadata.countP
      (fun m => decide (m.scanId = "s1")) = 1 ∧
    (1 : ℕ) < 2 ∧
    SpatialMemory.search true true (fun _ => [1]) none none
      (SpatialMemory.mk
        (List.replicate 21 ⟨"t", "s2", "", 0, [], -1, "", 0, ⟨0, 0, 0⟩, ""⟩ ++
          [⟨"u", "s1", "", 0, [], -1, "", 0, ⟨0, 0, 0⟩, ""⟩])
        (some (List.replicate 21 [2] ++ [[1]])) true) "q" 2 (some "s1") = [] := by
  refine ⟨by with_unfolding_all decide, by decide, by with_unfolding_all decide⟩

/-! ## Claim C10 — diff error handling -/

/-- Claim C10: the diff endpoint never mutates the scan store; a missing
scan id produces the descriptive not-found failure (naming the first
missing id, checked before-scan first) before any diff computation; two
existing scans with empty detection histories yield a successful response
with an empty event list and change count 0. -/
theorem claim10_diff_error_handling (scans : List (String × ScanRec))
    (b a : String) (thr : ℚ) :
    ((spatial_diff scans b a thr).1 = scans) ∧
    (alookup scans b = none →
      (spatial_diff scans b a thr).2 = .error (scanNotFoundMsg b)) ∧
    (alookup scans b ≠ none → alookup scans a = none →
      (spatial_diff scans b a thr).2 = .error (scanNotFoundMsg a)) ∧
    (∀ rb ra, alookup scans b = some rb → alookup scans a = some ra →
      rb.detections = [] → ra.detections = [] →
      spatial_diff scans b a thr = (scans, .ok ⟨b, a, thr, 0, []⟩)) := by
  refine ⟨?_, ?_, ?_, ?_⟩
  · cases hb : alookup scans b with
    | none => simp [spatial_diff, hb]
    | some rb =>
      cases ha : alookup scans a with
      | none => simp [spatial_diff, hb, ha]
      | some ra => simp [spatial_diff, hb, ha]
  · intro hb
    simp [spatial_diff, hb]
  · intro hb ha
    cases hb' : alookup scans b with
    | none => exact absurd hb' hb
    | some rb => simp [spatial_diff, hb', ha]
  · intro rb ra hb ha hrb hra
    simp [spatial_diff, hb, ha, hrb, hra, diffEvents, _latest_position_by_label, sortStr,
      List.insertionSort]

theorem claim10_diff_error_handling_witness :
    (alookup [("s1", (⟨"s1", "scanning", none, 0, 0, [], [], [], none, none⟩ : ScanRec)),
        ("s2", (⟨"s2", "scanning", none, 0, 0, [], [], [], none, none⟩ : ScanRec))] "zz"
        = none ∧
      (spatial_diff [("s1", (⟨"s1", "scanning", none, 0, 0, [], [], [], none, none⟩ : ScanRec)),
        ("s2", (⟨"s2", "scanning", none, 0, 0, [], [], [], none, none⟩ : ScanRec))] "zz" "s2"
          1).2 = .error (scanNotFoundMsg "zz")) ∧
    (alookup [("s1", (⟨"s1", "scanning", none, 0, 0, [], [], [], none, none⟩ : ScanRec)),
        ("s2", (⟨"s2", "scanning", none, 0, 0, [], [], [], none, none⟩ : ScanRec))] "s1"
        = some ⟨"s1", "scanning", none, 0, 0, [], [], [], none, none⟩ ∧
      spatial_diff [("s1", (⟨"s1", "scanning", none, 0, 0, [], [], [], none, none⟩ : ScanRec)),
        ("s2", (⟨"s2", "scanning", none, 0, 0, [], [], [], none, none⟩ : ScanRec))] "s1" "s2" 1
        = ([("s1", (⟨"s1", "scanning", none, 0, 0, [], [], [], none, none⟩ : ScanRec)),
            ("s2", (⟨"s2", "scanning", none, 0, 0, [], [], [], none, none⟩ : ScanRec))],
           .ok ⟨"s1", "s2", 1, 0, []⟩)) :=
  ⟨⟨by with_unfolding_all decide,
    (claim10_diff_error_handling _ "zz" "s2" 1).2.1 (by with_unfolding_all decide)⟩,
   ⟨by with_unfolding_all decide,
    (claim10_diff_error_handling _ "s1" "s2" 1).2.2.2
      ⟨"s1", "scanning", none, 0, 0, [], [], [], none, none⟩
      ⟨"s2", "scanning", none, 0, 0, [], [], [], none, none⟩
      (by with_unfolding_all decide) (by with_unfolding_all decide) rfl rfl⟩⟩

/-! ## Claim C1 — Scan Diff Engine -/

lemma latestStep_keys_nodup (acc : List (String × DetRec)) (item : DetRec)
    (h : (acc.map Prod.fst).Nodup) : ((latestStep acc item).map Prod.fst).Nodup := by
  unfold latestStep
  by_cases h0 : effLabel item = ""
  · simpa [h0] using h
  · rw [if_neg h0]
    cases halt : alookup acc (effLabel item) with
    | none => exact nodup_map_fst_upsert _ _ _ h
    | some prev =>
      dsimp only
      by_cases ht : prev.timestamp < item.timestamp
      · rw [if_pos ht]
        exact nodup_map_fst_upsert _ _ _ h
      · rw [if_neg ht]
        exact h

lemma latest_keys_nodup (dets : List DetRec) :
    ((_latest_position_by_label dets).map Prod.fst).Nodup := by
  suffices h : ∀ acc : List (String × DetRec), (acc.map Prod.fst).Nodup →
      ((dets.foldl latestStep acc).map Prod.fst).Nodup from h [] (by simp)
  induction dets with
  | nil =>
    intro acc hacc
    simpa using hacc
  | cons d ds ih =>
    intro acc hacc
    rw [List.foldl_cons]
    exact ih _ (latestStep_keys_nodup acc d hacc)

lemma sortStr_sorted (l : List String) : (sortStr l).Sorted (· ≤ ·) :=
  List.sorted_insertionSort _ l

lemma sortStr_perm (l : List String) : List.Perm (sortStr l) l :=
  List.perm_insertionSort _ l

lemma mem_sortStr {l : List String} {a : String} : a ∈ sortStr l ↔ a ∈ l :=
  (sortStr_perm l).mem_iff

lemma sortStr_nodup {l : List String} (h : l.Nodup) : (sortStr l).Nodup :=
  (sortStr_perm l).nodup_iff.mpr h

lemma map_label_filterMap (L : List String) (f : String → Option DiffEvent)
    (hlab : ∀ l e, f l = some e → e.label = l) :
    (L.filterMap f).map (fun e => e.label) = L.filter (fun l => (f l).isSome) := by
  induction L with
  | nil => rfl
  | cons a rest ih =>
    rw [List.filterMap_cons, List.filter_cons]
    cases hfa : f a with
    | none => simpa [hfa] using ih
    | some e =>
      simp only [hfa, Option.isSome_some, if_true, List.map_cons]
      rw [ih, hlab a e hfa]

lemma filterMap_filter_label_none (L : List String) (f : String → Option DiffEvent)
    (hlab : ∀ l e, f l = some e → e.label = l) (lbl : String)
    (h : lbl ∉ L ∨ f lbl = none) :
    (L.filterMap f).filter (fun e => decide (e.label = lbl)) = [] := by
  induction L with
  | nil => rfl
  | cons a rest ih =>
    have htail : lbl ∉ rest ∨ f lbl = none := by
      rcases h with h | h
      · exact Or.inl (fun hm => h (List.mem_cons_of_mem a hm))
      · exact Or.inr h
    rw [List.filterMap_cons]
    cases hfa : f a with
    | none => exact ih htail
    | some e =>
      rw [List.filter_cons]
      have hne : ¬(e.label = lbl) := by
        intro heq
        rw [hlab a e hfa] at heq
        subst heq
        rcases h with h | h
        · exact h (List.mem_cons_self _ _)
        · rw [h] at hfa
          exact Option.noConfusion hfa
      rw [decide_eq_false hne]
      simp only [Bool.false_eq_true, if_false]
      exact ih htail

lemma filterMap_filter_label_some (L : List String) (f : String → Option DiffEvent)
    (hlab : ∀ l e, f l = some e → e.label = l) (lbl : String) (e : DiffEvent)
    (hnd : L.Nodup) (hmem : lbl ∈ L) (hf : f lbl = some e) :
    (L.filterMap f).filter (fun e => decide (e.label = lbl)) = [e] := by
  induction L with
  | nil => cases hmem
  | cons a rest ih =>
    rw [List.nodup_cons] at hnd
    rw [List.filterMap_cons]
    by_cases ha : a = lbl
    · subst ha
      rw [hf, List.filter_cons, decide_eq_true (hlab a e hf), if_pos rfl,
        filterMap_filter_label_none rest f hlab a (Or.inl hnd.1)]
    · have hmem' : lbl ∈ rest :=
        (List.mem_cons.mp hmem).resolve_left (fun h => ha h.symm)
      cases hfa : f a with
      | none => exact ih hnd.2 hmem'
      | some ea =>
        rw [List.filter_cons]
        have hne : ¬(ea.label = lbl) := by
          rw [hlab a ea hfa]
          exact ha
        rw [decide_eq_false hne]
        simp only [Bool.false_eq_true, if_false]
        exact ih hnd.2 hmem'

lemma moveEventFor_label (beforeLatest afterLatest : List (String × DetRec))
    (threshold : ℚ) : ∀ l e, moveEventFor beforeLatest afterLatest threshold l = some e →
      e.label = l := by
  intro l e h
  unfold moveEventFor at h
  cases hb : alookup beforeLatest l with
  | none => rw [hb] at h; exact Option.noConfusion h
  | some oldItem =>
    cases ha : alookup afterLatest l with
    | none => rw [hb, ha] at h; exact Option.noConfusion h
    | some newItem =>
      rw [hb, ha] at h
      dsimp only at h
      by_cases hd : (threshold : ℝ) <
          _euclidean_distance newItem.position3d oldItem.position3d
      · rw [if_pos hd] at h
        cases h
        rfl
      · rw [if_neg hd] at h
        exact Option.noConfusion h

lemma moveEventFor_etype (beforeLatest afterLatest : List (String × DetRec))
    (threshold : ℚ) : ∀ l e, moveEventFor beforeLatest afterLatest threshold l = some e →
      e.etype = .MOVE := by
  intro l e h
  unfold moveEventFor at h
  cases hb : alookup beforeLatest l with
  | none => rw [hb] at h; exact Option.noConfusion h
  | some oldItem =>
    cases ha : alookup afterLatest l with
    | none => rw [hb, ha] at h; exact Option.noConfusion h
    | some newItem =>
      rw [hb, ha] at h
      dsimp only at h
      by_cases hd : (threshold : ℝ) <
          _euclidean_distance newItem.position3d oldItem.position3d
      · rw [if_pos hd] at h
        cases h
        rfl
      · rw [if_neg hd] at h
        exact Option.noConfusion h

lemma map_g_filter_label_none (L : List String) (g : String → DiffEvent)
    (hlab : ∀ l, (g l).label = l) (lbl : String) (h : lbl ∉ L) :
    (L.map g).filter (fun e => decide (e.label = lbl)) = [] := by
  induction L with
  | nil => rfl
  | cons x rest ih =>
    rw [List.map_cons, List.filter_cons]
    have hne : ¬((g x).label = lbl) := by
      rw [hlab x]
      intro heq
      exact h (heq ▸ List.mem_cons_self x rest)
    rw [decide_eq_false hne]
    simp only [Bool.false_eq_true, if_false]
    exact ih (fun hm => h (List.mem_cons_of_mem x hm))

lemma map_g_filter_label_some (L : List String) (g : String → DiffEvent)
    (hlab : ∀ l, (g l).label = l) (lbl : String) (hnd : L.Nodup) (hmem : lbl ∈ L) :
    (L.map g).filter (fun e => decide (e.label = lbl)) = [g lbl] := by
  induction L with
  | nil => cases hmem
  | cons x rest ih =>
    rw [List.nodup_cons] at hnd
    rw [List.map_cons, List.filter_cons]
    by_cases hx : x = lbl
    · subst hx
      rw [decide_eq_true (hlab x), if_pos rfl,
        map_g_filter_label_none rest g hlab x hnd.1]
    · have hne : ¬((g x).label = lbl) := by
        rw [hlab x]
        exact hx
      rw [decide_eq_false hne]
      simp only [Bool.false_eq_true, if_false]
      exact ih hnd.2 ((List.mem_cons.mp hmem).resolve_left (fun h => hx h.symm))

lemma round4_one : round4 1 = 1 := by
  unfold round4 pyRoundIntR
  norm_num

/-- Claim C1: over two existing scans the diff emits exactly one MOVE event
(with the distance rounded to 4 decimals, from and to positions) per label
common to both latest-position maps whose distance strictly exceeds the
threshold, no event for common labels within the threshold, exactly one
ADDED per after-only label and one REMOVED per before-only label; the
events come as MOVE then ADDED then REMOVED, each block in ascending label
order.  In particular, before latest positions a:(0,0,0) versus after
a:(1,0,0), b:(0,0,0) at threshold 0.5 produce exactly
[MOVE a distance 1.0, ADDED b]. -/
theorem claim1_scan_diff_events (scans : List (String × ScanRec)) (b a : String)
    (thr : ℚ) (rb ra : ScanRec) (hb : alookup scans b = some rb)
    (ha : alookup scans a = some ra) :
    ∃ resp : DiffResponse,
      (spatial_diff scans b a thr).2 = Except.ok resp ∧
      resp.events = diffEvents (_latest_position_by_label rb.detections)
        (_latest_position_by_label ra.detections) thr ∧
      resp.changeCount = resp.events.length ∧
      (∀ lbl db da,
        alookup (_latest_position_by_label rb.detections) lbl = some db →
        alookup (_latest_position_by_label ra.detections) lbl = some da →
        (((thr : ℝ) < _euclidean_distance da.position3d db.position3d →
          resp.events.filter (fun e => decide (e.label = lbl)) =
            [⟨EvType.MOVE, lbl,
              some (round4 (_euclidean_distance da.position3d db.position3d)),
              some db.position3d, some da.position3d⟩]) ∧
         (¬ (thr : ℝ) < _euclidean_distance da.position3d db.position3d →
          resp.events.filter (fun e => decide (e.label = lbl)) = []))) ∧
      (∀ lbl da,
        alookup (_latest_position_by_label rb.detections) lbl = none →
        alookup (_latest_position_by_label ra.detections) lbl = some da →
        resp.events.filter (fun e => decide (e.label = lbl)) =
          [⟨EvType.ADDED, lbl, none, none, some da.position3d⟩]) ∧
      (∀ lbl db,
        alookup (_latest_position_by_label rb.detections) lbl = some db →
        alookup (_latest_position_by_label ra.detections) lbl = none →
        resp.events.filter (fun e => decide (e.label = lbl)) =
          [⟨EvType.REMOVED, lbl, none, some db.position3d, none⟩]) ∧
      (∀ lbl,
        alookup (_latest_position_by_label rb.detections) lbl = none →
        alookup (_latest_position_by_label ra.detections) lbl = none →
        resp.events.filter (fun e => decide (e.label = lbl)) = []) ∧
      (∃ moves addedEvs removedEvs,
        resp.events = moves ++ addedEvs ++ removedEvs ∧
        (∀ e ∈ moves, e.etype = EvType.MOVE) ∧
        (∀ e ∈ addedEvs, e.etype = EvType.ADDED) ∧
        (∀ e ∈ removedEvs, e.etype = EvType.REMOVED) ∧
        (moves.map (fun e => e.label)).Sorted (· ≤ ·) ∧
        (addedEvs.map (fun e => e.label)).Sorted (· ≤ ·) ∧
        (removedEvs.map (fun e => e.label)).Sorted (· ≤ ·)) ∧
      diffEvents (_latest_position_by_label [⟨"a", "a", "", 1, ⟨0, 0, 0⟩, 0, "p"⟩])
        (_latest_position_by_label [⟨"a", "a", "", 1, ⟨1, 0, 0⟩, 0, "p"⟩,
          ⟨"b", "b", "", 1, ⟨0, 0, 0⟩, 0, "p"⟩]) (1/2) =
        [⟨EvType.MOVE, "a", some 1, some ⟨0, 0, 0⟩, some ⟨1, 0, 0⟩⟩,
         ⟨EvType.ADDED, "b", none, none, some ⟨0, 0, 0⟩⟩] := by
  have hcontains : ∀ (L : List String) (x : String), L.contains x = true ↔ x ∈ L :=
    fun L x => List.elem_iff
  set LB := _latest_position_by_label rb.detections with hLBdef
  set LA := _latest_position_by_label ra.detections with hLAdef
  have hndB : (LB.map Prod.fst).Nodup := latest_keys_nodup _
  have hndA : (LA.map Prod.fst).Nodup := latest_keys_nodup _
  have hsomeB : ∀ lbl d, alookup LB lbl = some d → lbl ∈ LB.map Prod.fst := by
    intro lbl d h
    by_contra hc
    rw [(alookup_eq_none_iff LB lbl).mpr hc] at h
    exact Option.noConfusion h
  have hsomeA : ∀ lbl d, alookup LA lbl = some d → lbl ∈ LA.map Prod.fst := by
    intro lbl d h
    by_contra hc
    rw [(alookup_eq_none_iff LA lbl).mpr hc] at h
    exact Option.noConfusion h
  set CL := sortStr ((LB.map Prod.fst).filter
    (fun l => (LA.map Prod.fst).contains l)) with hCLdef
  set AddL := sortStr ((LA.map Prod.fst).filter
    (fun l => !(LB.map Prod.fst).contains l)) with hAddLdef
  set RemL := sortStr ((LB.map Prod.fst).filter
    (fun l => !(LA.map Prod.fst).contains l)) with hRemLdef
  have hevents : diffEvents LB LA thr =
      CL.filterMap (moveEventFor LB LA thr) ++ AddL.map (addedEventFor LA)
        ++ RemL.map (removedEventFor LB) := rfl
  have hndC : CL.Nodup := sortStr_nodup (hndB.filter _)
  have hndAdd : AddL.Nodup := sortStr_nodup (hndA.filter _)
  have hndRem : RemL.Nodup := sortStr_nodup (hndB.filter _)
  have hmemCL : ∀ lbl, lbl ∈ CL ↔ lbl ∈ LB.map Prod.fst ∧ lbl ∈ LA.map Prod.fst := by
    intro lbl
    rw [hCLdef, mem_sortStr, List.mem_filter]
    constructor
    · rintro ⟨h1, h2⟩
      exact ⟨h1, (hcontains _ _).mp h2⟩
    · rintro ⟨h1, h2⟩
      exact ⟨h1, (hcontains _ _).mpr h2⟩
  have hmemAddL : ∀ lbl, lbl ∈ AddL ↔ lbl ∈ LA.map Prod.fst ∧ lbl ∉ LB.map Prod.fst := by
    intro lbl
    rw [hAddLdef, mem_sortStr, List.mem_filter]
    constructor
    · rintro ⟨h1, h2⟩
      refine ⟨h1, fun hm => ?_⟩
      rw [(hcontains _ _).mpr hm] at h2
      simp at h2
    · rintro ⟨h1, h2⟩
      refine ⟨h1, ?_⟩
      cases hc : (LB.map Prod.fst).contains lbl
      · simp
      · exact absurd ((hcontains _ _).mp hc) h2
  have hmemRemL : ∀ lbl, lbl ∈ RemL ↔ lbl ∈ LB.map Prod.fst ∧ lbl ∉ LA.map Prod.fst := by
    intro lbl
    rw [hRemLdef, mem_sortStr, List.mem_filter]
    constructor
    · rintro ⟨h1, h2⟩
      refine ⟨h1, fun hm => ?_⟩
      rw [(hcontains _ _).mpr hm] at h2
      simp at h2
    · rintro ⟨h1, h2⟩
      refine ⟨h1, ?_⟩
      cases hc : (LA.map Prod.fst).contains lbl
      · simp
      · exact absurd ((hcontains _ _).mp hc) h2
  have hresp : (spatial_diff scans b a thr).2 =
      Except.ok ⟨b, a, thr, (diffEvents LB LA thr).length, diffEvents LB LA thr⟩ := by
    simp only [spatial_diff, hb, ha]
  refine ⟨⟨b, a, thr, (diffEvents LB LA thr).length, diffEvents LB LA thr⟩, hresp,
    rfl, rfl, ?_, ?_, ?_, ?_, ?_, ?_⟩
  · -- MOVE characterization
    intro lbl db da hdb hda
    have hmemB := hsomeB lbl db hdb
    have hmemA := hsomeA lbl da hda
    have hC : lbl ∈ CL := (hmemCL lbl).mpr ⟨hmemB, hmemA⟩
    have hAddnone : (AddL.map (addedEventFor LA)).filter
        (fun e => decide (e.label = lbl)) = [] :=
      map_g_filter_label_none _ _ (fun l => rfl) lbl
        (fun hm => ((hmemAddL lbl).mp hm).2 hmemB)
    have hRemnone : (RemL.map (removedEventFor LB)).filter
        (fun e => decide (e.label = lbl)) = [] :=
      map_g_filter_label_none _ _ (fun l => rfl) lbl
        (fun hm => ((hmemRemL lbl).mp hm).2 hmemA)
    constructor
    · intro hdist
      have hf : moveEventFor LB LA thr lbl =
          some ⟨EvType.MOVE, lbl,
            some (round4 (_euclidean_distance da.position3d db.position3d)),
            some db.position3d, some da.position3d⟩ := by
        unfold moveEventFor
        rw [hdb, hda]
        dsimp only
        rw [if_pos hdist]
      show (diffEvents LB LA thr).filter (fun e => decide (e.label = lbl)) = _
      rw [hevents, List.filter_append, List.filter_append,
        filterMap_filter_label_some CL _ (moveEventFor_label LB LA thr) lbl _ hndC hC hf,
        hAddnone, hRemnone, List.append_nil, List.append_nil]
    · intro hdist
      have hf : moveEventFor LB LA thr lbl = none := by
        unfold moveEventFor
        rw [hdb, hda]
        dsimp only
        rw [if_neg hdist]
      show (diffEvents LB LA thr).filter (fun e => decide (e.label = lbl)) = _
      rw [hevents, List.filter_append, List.filter_append,
        filterMap_filter_label_none CL _ (moveEventFor_label LB LA thr) lbl (Or.inr hf),
        hAddnone, hRemnone, List.append_nil, List.append_nil]
  · -- ADDED characterization
    intro lbl da hdb hda
    have hmemA := hsomeA lbl da hda
    have hnotB : lbl ∉ LB.map Prod.fst := (alookup_eq_none_iff LB lbl).mp hdb
    have hmovenone : (CL.filterMap (moveEventFor LB LA thr)).filter
        (fun e => decide (e.label = lbl)) = [] :=
      filterMap_filter_label_none CL _ (moveEventFor_label LB LA thr) lbl
        (Or.inl (fun hm => hnotB ((hmemCL lbl).mp hm).1))
    have hRemnone : (RemL.map (removedEventFor LB)).filter
        (fun e => decide (e.label = lbl)) = [] :=
      map_g_filter_label_none _ _ (fun l => rfl) lbl
        (fun hm => hnotB ((hmemRemL lbl).mp hm).1)
    have hAddmem : lbl ∈ AddL := (hmemAddL lbl).mpr ⟨hmemA, hnotB⟩
    have hAddval : addedEventFor LA lbl =
        ⟨EvType.ADDED, lbl, none, none, some da.position3d⟩ := by
      unfold addedEventFor
      rw [hda]
      rfl
    show (diffEvents LB LA thr).filter (fun e => decide (e.label = lbl)) = _
    rw [hevents, List.filter_append, List.filter_append, hmovenone,
      map_g_filter_label_some AddL _ (fun l => rfl) lbl hndAdd hAddmem,
      hAddval, hRemnone, List.nil_append, List.append_nil]
  · -- REMOVED characterization
    intro lbl db hdb hda
    have hmemB := hsomeB lbl db hdb
    have hnotA : lbl ∉ LA.map Prod.fst := (alookup_eq_none_iff LA lbl).mp hda
    have hmovenone : (CL.filterMap (moveEventFor LB LA thr)).filter
        (fun e => decide (e.label = lbl)) = [] :=
      filterMap_filter_label_none CL _ (moveEventFor_label LB LA thr) lbl
        (Or.inl (fun hm => hnotA ((hmemCL lbl).mp hm).2))
    have hAddnone : (AddL.map (addedEventFor LA)).filter
        (fun e => decide (e.label = lbl)) = [] :=
      map_g_filter_label_none _ _ (fun l => rfl) lbl
        (fun hm => hnotA ((hmemAddL lbl).mp hm).1)
    have hRemmem : lbl ∈ RemL := (hmemRemL lbl).mpr ⟨hmemB, hnotA⟩
    have hRemval : removedEventFor LB lbl =
        ⟨EvType.REMOVED, lbl, none, some db.position3d, none⟩ := by
      unfold removedEventFor
      rw [hdb]
      rfl
    show (diffEvents LB LA thr).filter (fun e => decide (e.label = lbl)) = _
    rw [hevents, List.filter_append, List.filter_append, hmovenone, hAddnone,
      map_g_filter_label_some RemL _ (fun l => rfl) lbl hndRem hRemmem,
      hRemval, List.nil_append, List.nil_append]
  · -- no event for labels in neither map
    intro lbl hdb hda
    have hnotB : lbl ∉ LB.map Prod.fst := (alookup_eq_none_iff LB lbl).mp hdb
    have hnotA : lbl ∉ LA.map Prod.fst := (alookup_eq_none_iff LA lbl).mp hda
    show (diffEvents LB LA thr).filter (fun e => decide (e.label = lbl)) = _
    rw [hevents, List.filter_append, List.filter_append,
      filterMap_filter_label_none CL _ (moveEventFor_label LB LA thr) lbl
        (Or.inl (fun hm => hnotB ((hmemCL lbl).mp hm).1)),
      map_g_filter_label_none _ _ (fun l => rfl) lbl
        (fun hm => hnotA ((hmemAddL lbl).mp hm).1),
      map_g_filter_label_none _ _ (fun l => rfl) lbl
        (fun hm => hnotB ((hmemRemL lbl).mp hm).1)]
    rfl
  · -- category ordering
    refine ⟨CL.filterMap (moveEventFor LB LA thr), AddL.map (addedEventFor LA),
      RemL.map (removedEventFor LB), hevents, ?_, ?_, ?_, ?_, ?_, ?_⟩
    · intro e he
      obtain ⟨l, _, hfl⟩ := List.mem_filterMap.mp he
      exact moveEventFor_etype LB LA thr l e hfl
    · intro e he
      obtain ⟨l, _, hgl⟩ := List.mem_map.mp he
      rw [← hgl]
      rfl
    · intro e he
      obtain ⟨l, _, hgl⟩ := List.mem_map.mp he
      rw [← hgl]
      rfl
    · rw [map_label_filterMap CL _ (moveEventFor_label LB LA thr)]
      exact (sortStr_sorted _).sublist (List.filter_sublist CL)
    · have hmap : (AddL.map (addedEventFor LA)).map (fun e => e.label) = AddL := by
        rw [List.map_map]
        exact List.map_id AddL
      rw [hmap, hAddLdef]
      exact sortStr_sorted _
    · have hmap : (RemL.map (removedEventFor LB)).map (fun e => e.label) = RemL := by
        rw [List.map_map]
        exact List.map_id RemL
      rw [hmap, hRemLdef]
      exact sortStr_sorted _
  · -- the concrete example from the claim
    have hLBc : _latest_position_by_label [⟨"a", "a", "", 1, ⟨0, 0, 0⟩, 0, "p"⟩] =
        [("a", ⟨"a", "a", "", 1, ⟨0, 0, 0⟩, 0, "p"⟩)] := by
      with_unfolding_all decide
    have hLAc : _latest_position_by_label [⟨"a", "a", "", 1, ⟨1, 0, 0⟩, 0, "p"⟩,
        ⟨"b", "b", "", 1, ⟨0, 0, 0⟩, 0, "p"⟩] =
        [("a", ⟨"a", "a", "", 1, ⟨1, 0, 0⟩, 0, "p"⟩),
         ("b", ⟨"b", "b", "", 1, ⟨0, 0, 0⟩, 0, "p"⟩)] := by
      with_unfolding_all decide
    rw [hLBc, hLAc]
    have hmv : moveEventFor [("a", (⟨"a", "a", "", 1, ⟨0, 0, 0⟩, 0, "p"⟩ : DetRec))]
        [("a", ⟨"a", "a", "", 1, ⟨1, 0, 0⟩, 0, "p"⟩),
         ("b", ⟨"b", "b", "", 1, ⟨0, 0, 0⟩, 0, "p"⟩)] (1/2) "a" =
        some ⟨EvType.MOVE, "a", some 1, some ⟨0, 0, 0⟩, some ⟨1, 0, 0⟩⟩ := by
      unfold moveEventFor
      rw [show alookup [("a", (⟨"a", "a", "", 1, ⟨0, 0, 0⟩, 0, "p"⟩ : DetRec))] "a" =
          some ⟨"a", "a", "", 1, ⟨0, 0, 0⟩, 0, "p"⟩ by with_unfolding_all decide]
      rw [show alookup [("a", (⟨"a", "a", "", 1, ⟨1, 0, 0⟩, 0, "p"⟩ : DetRec)),
          ("b", ⟨"b", "b", "", 1, ⟨0, 0, 0⟩, 0, "p"⟩)] "a" =
          some ⟨"a", "a", "", 1, ⟨1, 0, 0⟩, 0, "p"⟩ by with_unfolding_all decide]
      dsimp only
      have hdist : _euclidean_distance (⟨1, 0, 0⟩ : Pos3) (⟨0, 0, 0⟩ : Pos3) = 1 := by
        unfold _euclidean_distance
        norm_num
      rw [hdist, if_pos (by norm_num : (((1 : ℚ)/2 : ℚ) : ℝ) < 1), round4_one]
    have haddev : addedEventFor
        [("a", (⟨"a", "a", "", 1, ⟨1, 0, 0⟩, 0, "p"⟩ : DetRec)),
         ("b", ⟨"b", "b", "", 1, ⟨0, 0, 0⟩, 0, "p"⟩)] "b" =
        ⟨EvType.ADDED, "b", none, none, some ⟨0, 0, 0⟩⟩ := by
      unfold addedEventFor
      rw [show alookup [("a", (⟨"a", "a", "", 1, ⟨1, 0, 0⟩, 0, "p"⟩ : DetRec)),
          ("b", ⟨"b", "b", "", 1, ⟨0, 0, 0⟩, 0, "p"⟩)] "b" =
          some ⟨"b", "b", "", 1, ⟨0, 0, 0⟩, 0, "p"⟩ by with_unfolding_all decide]
      rfl
    simp only [diffEvents]
    rw [show sortStr (([("a", (⟨"a", "a", "", 1, ⟨0, 0, 0⟩, 0, "p"⟩ : DetRec))].map
        Prod.fst).filter (fun l => (([("a", (⟨"a", "a", "", 1, ⟨1, 0, 0⟩, 0, "p"⟩ :
        DetRec)), ("b", ⟨"b", "b", "", 1, ⟨0, 0, 0⟩, 0, "p"⟩)].map Prod.fst)).contains l))
        = ["a"] by with_unfolding_all decide]
    rw [show sortStr (([("a", (⟨"a", "a", "", 1, ⟨1, 0, 0⟩, 0, "p"⟩ : DetRec)),
        ("b", ⟨"b", "b", "", 1, ⟨0, 0, 0⟩, 0, "p"⟩)].map Prod.fst).filter
        (fun l => !(([("a", (⟨"a", "a", "", 1, ⟨0, 0, 0⟩, 0, "p"⟩ : DetRec))].map
        Prod.fst)).contains l)) = ["b"] by with_unfolding_all decide]
    rw [show sortStr (([("a", (⟨"a", "a", "", 1, ⟨0, 0, 0⟩, 0, "p"⟩ : DetRec))].map
        Prod.fst).filter (fun l => !(([("a", (⟨"a", "a", "", 1, ⟨1, 0, 0⟩, 0, "p"⟩ :
        DetRec)), ("b", ⟨"b", "b", "", 1, ⟨0, 0, 0⟩, 0, "p"⟩)].map Prod.fst)).contains l))
        = [] by with_unfolding_all decide]
    rw [List.filterMap_cons, hmv, List.filterMap_nil, List.map_cons, haddev,
      List.map_nil]
    rfl

theorem claim1_scan_diff_events_witness :
    (alookup [("s1", (⟨"s1", "scanning", none, 1, 0, [],
        [⟨"a", "a", "", 1, ⟨0, 0, 0⟩, 0, "p"⟩], [], none, none⟩ : ScanRec)),
      ("s2", (⟨"s2", "scanning", none, 1, 0, [],
        [⟨"a", "a", "", 1, ⟨1, 0, 0⟩, 0, "p"⟩, ⟨"b", "b", "", 1, ⟨0, 0, 0⟩, 0, "p"⟩],
        [], none, none⟩ : ScanRec))] "s1" =
      some ⟨"s1", "scanning", none, 1, 0, [],
        [⟨"a", "a", "", 1, ⟨0, 0, 0⟩, 0, "p"⟩], [], none, none⟩ ∧
     alookup [("s1", (⟨"s1", "scanning", none, 1, 0, [],
        [⟨"a", "a", "", 1, ⟨0, 0, 0⟩, 0, "p"⟩], [], none, none⟩ : ScanRec)),
      ("s2", (⟨"s2", "scanning", none, 1, 0, [],
        [⟨"a", "a", "", 1, ⟨1, 0, 0⟩, 0, "p"⟩, ⟨"b", "b", "", 1, ⟨0, 0, 0⟩, 0, "p"⟩],
        [], none, none⟩ : ScanRec))] "s2" =
      some ⟨"s2", "scanning", none, 1, 0, [],
        [⟨"a", "a", "", 1, ⟨1, 0, 0⟩, 0, "p"⟩, ⟨"b", "b", "", 1, ⟨0, 0, 0⟩, 0, "p"⟩],
        [], none, none⟩) ∧
    (∃ resp : DiffResponse,
      (spatial_diff [("s1", (⟨"s1", "scanning", none, 1, 0, [],
          [⟨"a", "a", "", 1, ⟨0, 0, 0⟩, 0, "p"⟩], [], none, none⟩ : ScanRec)),
        ("s2", (⟨"s2", "scanning", none, 1, 0, [],
          [⟨"a", "a", "", 1, ⟨1, 0, 0⟩, 0, "p"⟩, ⟨"b", "b", "", 1, ⟨0, 0, 0⟩, 0, "p"⟩],
          [], none, none⟩ : ScanRec))] "s1" "s2" (1/2)).2 = Except.ok resp ∧
      resp.events =
        [⟨EvType.MOVE, "a", some 1, some ⟨0, 0, 0⟩, some ⟨1, 0, 0⟩⟩,
         ⟨EvType.ADDED, "b", none, none, some ⟨0, 0, 0⟩⟩]) := by
  refine ⟨⟨by with_unfolding_all decide, by with_unfolding_all decide⟩, ?_⟩
  obtain ⟨resp, hok, hev, _, _, _, _, _, _, hconcrete⟩ :=
    claim1_scan_diff_events
      [("s1", (⟨"s1", "scanning", none, 1, 0, [],
          [⟨"a", "a", "", 1, ⟨0, 0, 0⟩, 0, "p"⟩], [], none, none⟩ : ScanRec)),
        ("s2", (⟨"s2", "scanning", none, 1, 0, [],
          [⟨"a", "a", "", 1, ⟨1, 0, 0⟩, 0, "p"⟩, ⟨"b", "b", "", 1, ⟨0, 0, 0⟩, 0, "p"⟩],
          [], none, none⟩ : ScanRec))] "s1" "s2" (1/2)
      ⟨"s1", "scanning", none, 1, 0, [],
        [⟨"a", "a", "", 1, ⟨0, 0, 0⟩, 0, "p"⟩], [], none, none⟩
      ⟨"s2", "scanning", none, 1, 0, [],
        [⟨"a", "a", "", 1, ⟨1, 0, 0⟩, 0, "p"⟩, ⟨"b", "b", "", 1, ⟨0, 0, 0⟩, 0, "p"⟩],
        [], none, none⟩
      (by with_unfolding_all decide) (by with_unfolding_all decide)
  exact ⟨resp, hok, by rw [hev]; exact hconcrete⟩

end SpatialVCS
